import Mathlib

/-!
Verification of the crypto-tax-app repository against its natural-language
specification.

The development shallowly embeds the two algorithmic cores of the repository:

* the cost-basis engine `CostBasisCalculator`
  (src/.history/backend/src/calculations/demo-cost-basis_20250917090329.ts,
  second document: class `CostBasisCalculator`), and
* the per-chain adapter layer
  (src/backend/src/blockchain/adapters/ethereum.adapter.ts,
  src/backend/src/blockchain/adapters/solana.adapter.ts,
  src/unnamed/part_011 = bitcoin.adapter.ts,
  and the shared error/type declarations in adapter.interface), and
* the `fromWei` / `toWei` helpers of src/shared/src/utils.ts.

Numeric conventions of the embedding: the engine's JavaScript numbers
(products of `parseFloat` and floating-point arithmetic) are modelled as
rationals `ℚ`; every concrete value appearing in the claims is exactly
representable as a double and the arithmetic on those values is exact, so the
rational model agrees with the JavaScript semantics on everything proved
below.  Signed decimal amount strings of the engine's `Transaction` input are
modelled by their rational value; the source's outgoing-transaction test
`tx.amount.startsWith('-')` is modelled as `tx.amount < 0`, which coincides
with it for every normalised decimal string (only the non-canonical string
"-0" would differ, and no claim involves it).
-/

namespace CryptoTax

/-- Transaction `type` vocabulary of the cost-basis input
(shared `Transaction` interface, src/unnamed/part_003). -/
inductive TxType where
  | buy
  | sell
  | swap
  | transfer
  | airdrop
  | reward
  | mining
  | fee
  deriving DecidableEq, Repr

/-- Cost-basis accounting method (`CalculationMethod`). `HIFO` is declared in
the source enum but unimplemented; the calculator takes only FIFO / LIFO paths
(`sortAcquisitions` treats anything else like FIFO). -/
inductive CalculationMethod where
  | FIFO
  | LIFO
  deriving DecidableEq, Repr

/-- Engine-input transaction (shared `Transaction` interface): the fields the
calculator reads.  `amount` is the rational value of the signed decimal
amount string, `timestamp` is epoch milliseconds. -/
structure Transaction where
  id : String
  tokenSymbol : String
  type : TxType
  amount : ℚ
  priceUSD : Option ℚ
  timestamp : ℤ
  deriving DecidableEq, Repr

/-- One lot / disposition record (`ExtendedCostBasisEntry` in the source).
For an acquisition entry `amount` is the (remaining) lot quantity and
`costBasisUSD` its remaining USD basis; for an appended disposition entry
`amount` is negative and `costBasisUSD` holds the realized gain/loss. -/
structure CostBasisEntry where
  id : String
  transactionId : String
  tokenSymbol : String
  amount : ℚ
  costBasisUSD : ℚ
  acquisitionDate : ℤ
  method : CalculationMethod
  taxYear : ℤ
  isDisposed : Bool
  disposalTxnId : Option String
  deriving DecidableEq, Repr

/-- Options record (`CalculationOptions`). The `jurisdiction` field is never
read by the calculator and is omitted. -/
structure CalculationOptions where
  method : CalculationMethod
  taxYear : Option ℤ
  deriving DecidableEq, Repr

/-- Per-token summary (`CostBasisResult`). The source renders the five
aggregates with `Number.prototype.toString`; the embedding keeps their
rational values. -/
structure CostBasisResult where
  tokenSymbol : String
  totalAcquired : ℚ
  totalDisposed : ℚ
  remainingQuantity : ℚ
  realizedGainLoss : ℚ
  costBasis : ℚ
  entries : List CostBasisEntry
  deriving DecidableEq, Repr

/-- Models `new Date().getFullYear()`, the wall-clock fallback used when
`options.taxYear` is falsy.  No output verified below depends on it. -/
def currentYear : ℤ := 2025

/-- Models the JavaScript expression `options.taxYear || new Date().getFullYear()`
(`||` falls through on the falsy year 0 as well as on `undefined`). -/
def effectiveTaxYear (opts : CalculationOptions) : ℤ :=
  match opts.taxYear with
  | none => currentYear
  | some y => if y = 0 then currentYear else y

/-- Acquisition filter of `calculateTokenCostBasis`:
`['buy', 'airdrop', 'reward', 'mining'].includes(tx.type)`. -/
def isAcquisitionType : TxType → Bool
  | .buy => true
  | .airdrop => true
  | .reward => true
  | .mining => true
  | _ => false

/-- Disposition type filter of `calculateTokenCostBasis`:
`['sell', 'swap', 'transfer'].includes(tx.type)`. -/
def isDispositionType : TxType → Bool
  | .sell => true
  | .swap => true
  | .transfer => true
  | _ => false

/-- The acquisition side of the partition in `calculateTokenCostBasis`. -/
def acquisitionsOf (txs : List Transaction) : List Transaction :=
  txs.filter (fun tx => isAcquisitionType tx.type)

/-- The disposition side of the partition in `calculateTokenCostBasis`:
disposition-typed and outgoing (`tx.amount.startsWith('-')`, modelled as a
negative rational value). -/
def dispositionsOf (txs : List Transaction) : List Transaction :=
  txs.filter (fun tx => isDispositionType tx.type && decide (tx.amount < 0))

/-- Stable insertion of one element into a sorted list: `x` is placed before
the first element `y` with `le x y`. -/
def insertSorted (le : Transaction → Transaction → Bool) (x : Transaction) :
    List Transaction → List Transaction
  | [] => [x]
  | y :: ys => if le x y then x :: y :: ys else y :: insertSorted le x ys

/-- Stable sort by the comparator order `le` (earlier input elements stay first
on ties), modelling the stable `Array.prototype.sort` used by
`sortAcquisitions`. -/
def stableSortBy (le : Transaction → Transaction → Bool) : List Transaction → List Transaction
  | [] => []
  | x :: xs => insertSorted le x (stableSortBy le xs)

/-- Comparator order of `sortAcquisitions`: FIFO sorts by timestamp ascending
(`dateA - dateB`), LIFO descending (`dateB - dateA`). -/
def acquisitionLE (method : CalculationMethod) (a b : Transaction) : Bool :=
  match method with
  | .FIFO => decide (a.timestamp ≤ b.timestamp)
  | .LIFO => decide (b.timestamp ≤ a.timestamp)

/-- `sortAcquisitions` of the source. -/
def sortAcquisitions (acquisitions : List Transaction) (method : CalculationMethod) :
    List Transaction :=
  stableSortBy (acquisitionLE method) acquisitions

/-- The lot entry materialised for one acquisition at the top of
`applyCostBasisMethod`: `costBasisUSD = parseFloat(amount) * (priceUSD || 0)`. -/
def initialEntry (opts : CalculationOptions) (acquisition : Transaction) : CostBasisEntry :=
  { id := "acq-" ++ acquisition.id
    transactionId := acquisition.id
    tokenSymbol := acquisition.tokenSymbol
    amount := acquisition.amount
    costBasisUSD := acquisition.amount * acquisition.priceUSD.getD 0
    acquisitionDate := acquisition.timestamp
    method := opts.method
    taxYear := effectiveTaxYear opts
    isDisposed := false
    disposalTxnId := none }

/-- Number of not-yet-disposed entries in a list; only used as (part of) the
termination measure of `matchDisposition`. -/
def countLive (l : List CostBasisEntry) : ℕ :=
  (l.filter (fun e => !e.isDisposed)).length

/-- Sum of the magnitudes of the disposition entries in an entry list
(the appended entries are exactly those carrying a `disposalTxnId`). -/
def dispEntrySum (l : List CostBasisEntry) : ℚ :=
  (l.map (fun e => if e.disposalTxnId.isSome then |e.amount| else 0)).sum

/-- Remaining supply held by not-yet-disposed lot entries. -/
def liveLotSum (l : List CostBasisEntry) : ℚ :=
  (l.map (fun e => if e.isDisposed then 0 else e.amount)).sum

/-- Shape invariant of the entry list maintained by the lot walk: every
not-yet-disposed entry is a lot with a non-negative remaining amount and no
`disposalTxnId`. -/
def WellFormedEntries (l : List CostBasisEntry) : Prop :=
  ∀ e ∈ l, e.isDisposed = false → 0 ≤ e.amount ∧ e.disposalTxnId = none

/-- The disposition entry appended when a whole lot is consumed
(`availableAmount <= remainingToDispose` branch of `applyCostBasisMethod`):
`amount = -availableAmount`, `costBasisUSD` = the realized gain/loss
`(dispositionPrice - entry.costBasisUSD / availableAmount) * availableAmount`. -/
def fullDispositionEntry (disp : Transaction) (opts : CalculationOptions) (i : ℕ)
    (entry : CostBasisEntry) : CostBasisEntry :=
  { id := "disp-" ++ disp.id ++ "-" ++ toString i
    transactionId := disp.id
    tokenSymbol := disp.tokenSymbol
    amount := -entry.amount
    costBasisUSD := (disp.priceUSD.getD 0 - entry.costBasisUSD / entry.amount) * entry.amount
    acquisitionDate := entry.acquisitionDate
    method := opts.method
    taxYear := effectiveTaxYear opts
    isDisposed := true
    disposalTxnId := some disp.id }

/-- The disposition entry appended when a lot is consumed partially
(else branch of `applyCostBasisMethod`'s lot walk): `usedAmount` is the whole
remaining disposal amount. -/
def partialDispositionEntry (disp : Transaction) (opts : CalculationOptions) (i : ℕ)
    (entry : CostBasisEntry) (usedAmount : ℚ) : CostBasisEntry :=
  { id := "disp-" ++ disp.id ++ "-" ++ toString i ++ "-partial"
    transactionId := disp.id
    tokenSymbol := disp.tokenSymbol
    amount := -usedAmount
    costBasisUSD := (disp.priceUSD.getD 0 - entry.costBasisUSD / entry.amount) * usedAmount
    acquisitionDate := entry.acquisitionDate
    method := opts.method
    taxYear := effectiveTaxYear opts
    isDisposed := true
    disposalTxnId := some disp.id }

/-- The in-place mutation of a partially consumed lot:
`entry.amount -= usedAmount` and
`entry.costBasisUSD = (costBasisUSD / availableAmount) * (availableAmount - usedAmount)`. -/
def partialLotUpdate (entry : CostBasisEntry) (usedAmount : ℚ) : CostBasisEntry :=
  { entry with
    amount := entry.amount - usedAmount
    costBasisUSD := entry.costBasisUSD / entry.amount * (entry.amount - usedAmount) }

/-- The inner `while (remainingToDispose > 0 && acquisitionIndex < entries.length)`
loop of `applyCostBasisMethod`, for a single disposition transaction.  State:
the mutable `entries` array, the persistent `acquisitionIndex` cursor `i`, and
`remainingToDispose` `rem`.  Already-disposed entries are skipped; a lot whose
remaining amount is at most `rem` is consumed whole (marked disposed, a
disposition entry appended, cursor advanced); a larger lot is consumed
partially (amount and basis scaled down in place, a disposition entry
appended, `remainingToDispose = 0` terminates the loop with the cursor left
in place).  Division mirrors the source's
`parseFloat(entry.costBasisUSD) / availableAmount`. -/
def matchDisposition (disp : Transaction) (opts : CalculationOptions)
    (entries : List CostBasisEntry) (i : ℕ) (rem : ℚ) : List CostBasisEntry × ℕ :=
  if h : 0 < rem ∧ i < entries.length then
    match hd : (entries.get ⟨i, h.2⟩).isDisposed with
    | true =>
      matchDisposition disp opts entries (i + 1) rem
    | false =>
      let entry := entries.get ⟨i, h.2⟩
      if entry.amount ≤ rem then
        matchDisposition disp opts
          (entries.set i { entry with isDisposed := true } ++ [fullDispositionEntry disp opts i entry])
          (i + 1) (rem - entry.amount)
      else
        (entries.set i (partialLotUpdate entry rem) ++ [partialDispositionEntry disp opts i entry rem], i)
  else
    (entries, i)
termination_by entries.length - i + countLive (entries.drop i)
decreasing_by
  · have hcons : entries.drop i = entries.get ⟨i, h.2⟩ :: entries.drop (i + 1) :=
      List.drop_eq_getElem_cons h.2
    have hlive : countLive (entries.drop i) = countLive (entries.drop (i + 1)) := by
      unfold countLive
      rw [hcons, List.filter_cons]
      rw [List.get_eq_getElem] at hd
      simp [hd]
    omega
  · have hcons : entries.drop i = entries.get ⟨i, h.2⟩ :: entries.drop (i + 1) :=
      List.drop_eq_getElem_cons h.2
    have hlive : countLive (entries.drop i) = countLive (entries.drop (i + 1)) + 1 := by
      unfold countLive
      rw [hcons, List.filter_cons]
      rw [List.get_eq_getElem] at hd
      simp [hd]
    rw [List.drop_append_of_le_length (by simp; omega),
      List.drop_set_of_lt _ _ (Nat.lt_succ_self i)]
    have hcl : ∀ (tl : List CostBasisEntry) (y : CostBasisEntry), y.isDisposed = true →
        countLive (tl ++ [y]) = countLive tl := by
      intro tl y hy
      simp [countLive, List.filter_append, hy]
    rw [hcl _ _ rfl]
    simp only [List.length_append, List.length_set, List.length_cons, List.length_nil,
      Nat.succ_eq_add_one] at *
    omega

/-- `applyCostBasisMethod` of the source: materialise one lot entry per
(already sorted) acquisition, then walk the dispositions in caller order,
each consuming lots from the persistent cursor onward. -/
def applyCostBasisMethod (acquisitions : List Transaction) (dispositions : List Transaction)
    (opts : CalculationOptions) : List CostBasisEntry :=
  let initEntries := acquisitions.map (initialEntry opts)
  let final := dispositions.foldl
    (fun (st : List CostBasisEntry × ℕ) disp =>
      matchDisposition disp opts st.1 st.2 |disp.amount|)
    (initEntries, 0)
  final.1

/-- `calculateTokenCostBasis` of the source: partition, sort acquisitions,
apply the method, and aggregate.  `realizedGainLoss` sums `costBasisUSD` over
entries with `isDisposed = true`; `costBasis` over the rest. -/
def calculateTokenCostBasis (tokenSymbol : String) (transactions : List Transaction)
    (opts : CalculationOptions) : CostBasisResult :=
  let acquisitions := acquisitionsOf transactions
  let dispositions := dispositionsOf transactions
  let sortedAcquisitions := sortAcquisitions acquisitions opts.method
  let costBasisEntries := applyCostBasisMethod sortedAcquisitions dispositions opts
  let totalAcquired := (acquisitions.map (fun tx => |tx.amount|)).sum
  let totalDisposed := (dispositions.map (fun tx => |tx.amount|)).sum
  let remainingQuantity := totalAcquired - totalDisposed
  let realizedGainLoss :=
    ((costBasisEntries.filter (fun e => e.isDisposed)).map (fun e => e.costBasisUSD)).sum
  let totalCostBasis :=
    ((costBasisEntries.filter (fun e => !e.isDisposed)).map (fun e => e.costBasisUSD)).sum
  { tokenSymbol := tokenSymbol
    totalAcquired := totalAcquired
    totalDisposed := totalDisposed
    remainingQuantity := remainingQuantity
    realizedGainLoss := realizedGainLoss
    costBasis := totalCostBasis
    entries := costBasisEntries }

/-- First-appearance deduplication: the key order of the insertion-ordered
JavaScript `Map` built by `groupTransactionsByToken`. -/
def dedupKeepFirst : List String → List String
  | [] => []
  | x :: xs => x :: (dedupKeepFirst xs).filter (fun y => !(y == x))

/-- `groupTransactionsByToken` of the source builds an insertion-ordered
`Map`; the embedding keeps the list of distinct symbols in order of first
appearance. -/
def tokenSymbolsInOrder (transactions : List Transaction) : List String :=
  dedupKeepFirst (transactions.map (fun tx => tx.tokenSymbol))

/-- `calculateCostBasis` of the source: one `CostBasisResult` per distinct
token symbol, in first-appearance order; each token's result is computed from
exactly the transactions bearing that symbol. -/
def calculateCostBasis (transactions : List Transaction) (opts : CalculationOptions) :
    List CostBasisResult :=
  (tokenSymbolsInOrder transactions).map
    (fun symbol =>
      calculateTokenCostBasis symbol
        (transactions.filter (fun tx => tx.tokenSymbol == symbol)) opts)


/-- Decimal digit character for a digit value (`0 ↦ '0'`, …). -/
def digitChar (d : ℕ) : Char := Char.ofNat (48 + d)

/-- Digit value of a decimal digit character. -/
def charDigit (c : Char) : ℕ := c.toNat - 48

/-- Big-endian decimal digit characters, by repeated division; the fuel
argument (instantiated with `n` itself, an upper bound on the digit count)
makes the recursion structural. -/
def natDigitsAux : ℕ → ℕ → List Char
  | 0, _ => []
  | fuel + 1, n => if n = 0 then [] else natDigitsAux fuel (n / 10) ++ [digitChar (n % 10)]

/-- Big-endian decimal digit characters of a natural number (empty for 0). -/
def natDigits (n : ℕ) : List Char := natDigitsAux n n

/-- Decimal rendering of a natural number, as JavaScript `toString` produces
it (so `0` renders as `"0"`). -/
def natToStrChars (n : ℕ) : List Char := if n = 0 then ['0'] else natDigits n

/-- Decimal rendering of a `BigInt` value (`toString`): optional minus sign,
then digits with no leading zeros. -/
def intToStr (n : ℤ) : String :=
  if n < 0 then ⟨'-' :: natToStrChars n.natAbs⟩ else ⟨natToStrChars n.natAbs⟩

/-- Value of a big-endian digit-character list. -/
def digitsToNat (cs : List Char) : ℕ :=
  cs.foldl (fun acc c => 10 * acc + charDigit c) 0

/-- JavaScript `BigInt(string)` on a character list: empty string is `0`, an
optional single sign must be followed by at least one digit, any other
non-digit content throws (modelled as `none`). -/
def parseBigIntChars : List Char → Option ℤ
  | [] => some 0
  | c :: rest =>
    if c = '-' then
      if rest ≠ [] ∧ rest.all Char.isDigit then some (-(digitsToNat rest : ℤ)) else none
    else if c = '+' then
      if rest ≠ [] ∧ rest.all Char.isDigit then some ((digitsToNat rest : ℤ)) else none
    else if (c :: rest).all Char.isDigit then some ((digitsToNat (c :: rest) : ℤ)) else none

/-- JavaScript `BigInt(string)`. -/
def parseBigInt (s : String) : Option ℤ := parseBigIntChars s.data

/-- JavaScript `String.prototype.padStart(n, c)`. -/
def jsPadStart (cs : List Char) (n : ℕ) (c : Char) : List Char :=
  List.replicate (n - cs.length) c ++ cs

/-- JavaScript `String.prototype.padEnd(n, c)`. -/
def jsPadEnd (cs : List Char) (n : ℕ) (c : Char) : List Char :=
  cs ++ List.replicate (n - cs.length) c

/-- JavaScript `.replace(/\.?0+$/, '')`: remove the trailing run of `'0'`
characters (if any), together with a dot immediately preceding it; leftmost
match semantics coincide with this description. -/
def stripTrailingZerosDot (cs : List Char) : List Char :=
  let r := cs.reverse.dropWhile (fun c => c == '0')
  if r.length = cs.length then cs
  else
    match r with
    | '.' :: r2 => r2.reverse
    | _ => r.reverse

/-- First component of `amount.split('.')`. -/
def jsSplitDotFst (cs : List Char) : List Char :=
  cs.takeWhile (fun c => !(c == '.'))

/-- Second component of `amount.split('.')` (the default `''` when there is no
dot), as bound by `const [wholePart, fractionalPart = ''] = amount.split('.')`. -/
def jsSplitDotSnd (cs : List Char) : List Char :=
  match cs.dropWhile (fun c => !(c == '.')) with
  | [] => []
  | _ :: tl => tl.takeWhile (fun c => !(c == '.'))

/-- `fromWei` of src/shared/src/utils.ts.  The source computes
`factor = BigInt(Math.pow(10, decimals))`, which equals `10 ^ decimals`
exactly for `decimals ≤ 22` (the embedding's validity range); `BigInt`
division and remainder truncate toward zero (`Int.tdiv` / `Int.tmod`).
`none` models a thrown exception (invalid `BigInt` input). -/
def fromWei (amount : String) (decimals : ℕ) : Option String :=
  match parseBigInt amount with
  | none => none
  | some num =>
    let factor : ℤ := 10 ^ decimals
    let wholePart := num.tdiv factor
    let fractionalPart := num.tmod factor
    if fractionalPart = 0 then some (intToStr wholePart)
    else
      let fractionalStr := jsPadStart (intToStr fractionalPart).data decimals '0'
      some ⟨stripTrailingZerosDot ((intToStr wholePart).data ++ '.' :: fractionalStr)⟩

/-- `toWei` of src/shared/src/utils.ts: split on the dot, default the whole
part to `'0'` when empty, pad/truncate the fractional part to `decimals`
digits, and recombine; `none` models a thrown `BigInt` exception. -/
def toWei (amount : String) (decimals : ℕ) : Option String :=
  let wholePartStr := jsSplitDotFst amount.data
  let fracPartStr := jsSplitDotSnd amount.data
  let factor : ℤ := 10 ^ decimals
  match parseBigIntChars (if wholePartStr = [] then ['0'] else wholePartStr),
        parseBigIntChars ((jsPadEnd fracPartStr decimals '0').take decimals) with
  | some whole, some fractional => some (intToStr (whole * factor + fractional))
  | _, _ => none


/-- JavaScript `Error` object as the adapters construct them: the
`BlockchainError` subclasses of adapter.interface set `name` to the class
name and `code` to their error code; a plain `new Error(msg)` has name
"Error" and no code. -/
structure JsError where
  name : String
  message : String
  code : Option String := none
  deriving DecidableEq, Repr

/-- `new InvalidAddressError(chain, address)` of adapter.interface. -/
def invalidAddressError (chain address : String) : JsError :=
  { name := "InvalidAddressError"
    message := "Invalid " ++ chain ++ " address: " ++ address
    code := some "INVALID_ADDRESS" }

/-- A plain `new Error(msg)`. -/
def jsGenericError (msg : String) : JsError :=
  { name := "Error", message := msg, code := none }

/-- `BlockchainConfig` of adapter.interface. -/
structure BlockchainConfig where
  rpcUrl : String
  apiKey : Option String := none
  network : Option String := none
  rateLimitMs : Option ℕ := none
  deriving DecidableEq, Repr

/-- Mutable instance state of `EthereumAdapter`: the `initialized` flag and
the provider (modelled by the configuration it was built from). -/
structure EthereumAdapterState where
  initialized : Bool := false
  provider : Option BlockchainConfig := none
  deriving DecidableEq, Repr

/-- Mutable instance state of `SolanaAdapter`. -/
structure SolanaAdapterState where
  initialized : Bool := false
  connection : Option BlockchainConfig := none
  config : Option BlockchainConfig := none
  deriving DecidableEq, Repr

/-- Mutable instance state of `BitcoinAdapter` (`network` collapses to a
testnet flag, as the source only distinguishes testnet from mainnet). -/
structure BitcoinAdapterState where
  initialized : Bool := false
  apiClient : Option BlockchainConfig := none
  networkTestnet : Bool := false
  deriving DecidableEq, Repr

/-- A freshly constructed `EthereumAdapter`. -/
def ethereumFresh : EthereumAdapterState := {}

/-- A freshly constructed `SolanaAdapter`. -/
def solanaFresh : SolanaAdapterState := {}

/-- A freshly constructed `BitcoinAdapter`. -/
def bitcoinFresh : BitcoinAdapterState := {}

/-- `EthereumAdapter.initialize`: throws a plain
`Error('Adapter already initialized')` when the instance is already
initialized, otherwise records the provider and sets the flag. -/
def ethereumInitialize (config : BlockchainConfig) (st : EthereumAdapterState) :
    Except JsError EthereumAdapterState :=
  if st.initialized then .error (jsGenericError "Adapter already initialized")
  else .ok { initialized := true, provider := some config }

/-- `SolanaAdapter.initialize`. -/
def solanaInitialize (config : BlockchainConfig) (st : SolanaAdapterState) :
    Except JsError SolanaAdapterState :=
  if st.initialized then .error (jsGenericError "Adapter already initialized")
  else .ok { initialized := true, connection := some config, config := some config }

/-- `BitcoinAdapter.initialize`. -/
def bitcoinInitialize (config : BlockchainConfig) (st : BitcoinAdapterState) :
    Except JsError BitcoinAdapterState :=
  if st.initialized then .error (jsGenericError "Adapter already initialized")
  else .ok { initialized := true, apiClient := some config,
             networkTestnet := config.network == some "testnet" }

/-- `address.startsWith('0x')`, computed on the character list. -/
def startsWith0x (s : String) : Bool :=
  match s.data with
  | '0' :: 'x' :: _ => true
  | _ => false

/-- Hexadecimal digit test of the regex class `[0-9a-fA-F]`. -/
def isHexDigitChar (c : Char) : Bool :=
  c.isDigit || ('a' ≤ c && c ≤ 'f') || ('A' ≤ c && c ≤ 'F')

/-- `EthereumAdapter.isValidAddress`: nonempty, "0x"-prefixed, exactly 42
characters, hex body (regex `^0x[0-9a-fA-F]{40}$`).  The source's trailing
`ethers.getAddress` probe returns `true` on both its success and failure
paths and so has no effect. -/
def ethereumIsValidAddress (address : String) : Bool :=
  if address = "" || !(startsWith0x address) || decide (address.length ≠ 42) then false
  else (address.data.drop 2).all isHexDigitChar

/-- Base58 character class `[1-9A-HJ-NP-Za-km-z]`. -/
def isBase58Char (c : Char) : Bool :=
  ('1' ≤ c && c ≤ '9') || ('A' ≤ c && c ≤ 'H') || ('J' ≤ c && c ≤ 'N') ||
  ('P' ≤ c && c ≤ 'Z') || ('a' ≤ c && c ≤ 'k') || ('m' ≤ c && c ≤ 'z')

/-- `SolanaAdapter.isValidAddress`: length 32–44, not "0x"-prefixed, base58
characters, then `new PublicKey(address)` / `PublicKey.isOnCurve` — the
library decode-and-curve check is the abstract predicate `isOnCurve`
(decode failures are caught and yield `false`, absorbed by the predicate). -/
def solanaIsValidAddress (isOnCurve : String → Bool) (address : String) : Bool :=
  if address = "" || decide (address.length < 32) || decide (address.length > 44) then false
  else if startsWith0x address then false
  else if !(address.data.all isBase58Char) then false
  else isOnCurve address

/-- `BitcoinAdapter.isValidAddress`: nonempty, not "0x"-prefixed, then
`bitcoin.address.toOutputScript` — the library derivation is the abstract
predicate `toOutputScriptOk` (its throw is caught and yields `false`). -/
def bitcoinIsValidAddress (toOutputScriptOk : String → Bool) (address : String) : Bool :=
  if address = "" then false
  else if startsWith0x address then false
  else toOutputScriptOk address

/-- Chain-specific raw transaction payloads are irrelevant to the
`getTransactions` guard claims; the fetched list is left abstract. -/
structure RawTransactionStub where
  hash : String
  deriving DecidableEq, Repr

/-- `EthereumAdapter.getTransactions`, guard portion: the address is
validated by the pure `isValidAddress` before the provider is touched or any
RPC issued.  `body` abstracts the chunked log-fetch loop (everything after
`ensureProvider`); the second component counts network requests, `0` on the
guard paths. -/
def ethereumGetTransactions (st : EthereumAdapterState) (address : String)
    (body : EthereumAdapterState → String → Except JsError (List RawTransactionStub) × ℕ) :
    Except JsError (List RawTransactionStub) × ℕ :=
  if !(ethereumIsValidAddress address) then
    (.error (invalidAddressError "ethereum" address), 0)
  else if st.provider = none then
    (.error (jsGenericError "Adapter not initialized"), 0)
  else body st address

/-- `SolanaAdapter.getTransactions`, guard portion (same shape as Ethereum,
with the curve-check oracle threaded through the validator). -/
def solanaGetTransactions (isOnCurve : String → Bool) (st : SolanaAdapterState)
    (address : String)
    (body : SolanaAdapterState → String → Except JsError (List RawTransactionStub) × ℕ) :
    Except JsError (List RawTransactionStub) × ℕ :=
  if !(solanaIsValidAddress isOnCurve address) then
    (.error (invalidAddressError "solana" address), 0)
  else if st.connection = none then
    (.error (jsGenericError "Adapter not initialized"), 0)
  else body st address

/-- `BitcoinAdapter.getTransactions`, guard portion: note the source checks
`this.apiClient` (initialization) before the address, unlike the other two
adapters. -/
def bitcoinGetTransactions (toOutputScriptOk : String → Bool) (st : BitcoinAdapterState)
    (address : String)
    (body : BitcoinAdapterState → String → Except JsError (List RawTransactionStub) × ℕ) :
    Except JsError (List RawTransactionStub) × ℕ :=
  if st.apiClient = none then
    (.error (jsGenericError "Adapter not initialized"), 0)
  else if !(bitcoinIsValidAddress toOutputScriptOk address) then
    (.error (invalidAddressError "bitcoin" address), 0)
  else body st address


/-- Adapter-level transaction type enum (`TransactionType`). -/
inductive TransactionType where
  | transfer
  | swap
  | stake
  | unstake
  | mint
  | burn
  | deposit
  | withdraw
  | claim
  | unknown
  deriving DecidableEq, Repr

/-- One pre/post token balance entry of a parsed Solana transaction's meta
(the fields `computeSplTokenDelta` reads: owner, mint, and
`uiTokenAmount.amount` / `.decimals`). -/
structure TokenBalance where
  owner : Option String := none
  mint : String := ""
  amount : Option String := none
  decimals : Option ℕ := none
  deriving DecidableEq, Repr

/-- The meta fields of a Solana transaction that `parseTransaction` reads. -/
structure SolMeta where
  preTokenBalances : List TokenBalance := []
  postTokenBalances : List TokenBalance := []
  deriving DecidableEq, Repr

/-- One Jupiter swap decomposition entry (`SwapAttributes`), restricted to
the fields `parseTransaction` reads; amounts are the integer values whose
`toString` the source takes. -/
structure SwapAttr where
  outSymbol : Option String := none
  inSymbol : Option String := none
  outAmount : Option ℤ := none
  exactOutAmount : Option ℤ := none
  outMint : Option String := none
  inMint : Option String := none
  deriving DecidableEq, Repr

/-- The `rawData` payload the Solana adapter attaches in `getTransactions`
and reads back in `parseTransaction`. -/
structure SolRawData where
  programIds : List String := []
  swapAttributes : Option (List SwapAttr) := none
  meta : Option SolMeta := none
  deriving DecidableEq, Repr

/-- Solana `RawTransaction` (`from` is `fromAddr`, `to` is `toAddr`;
`value` is the signed lamport-delta integer string). -/
structure SolRawTransaction where
  hash : String
  timestamp : ℤ
  fromAddr : String
  toAddr : Option String := none
  value : Option String := none
  fee : Option String := none
  status : String := "success"
  rawData : Option SolRawData := none
  deriving DecidableEq, Repr

/-- Canonical `ParsedTransaction` (fields the claims inspect; the free-form
`metadata` debug payload is omitted).  `amount` holds the rational value of
the JavaScript number/string the source stores in its string field. -/
structure ParsedTransaction where
  hash : String
  chain : String
  type : TransactionType
  fromAddr : String
  toAddr : Option String := none
  tokenSymbol : String
  tokenAddress : Option String := none
  amount : ℚ
  priceUSD : Option ℚ := none
  feeAmount : Option String := none
  status : String
  deriving DecidableEq, Repr

/-- JavaScript string-valued `x || y`: the empty string is falsy. -/
def jsOrStr (x : Option String) (y : String) : String :=
  match x with
  | some s => if s = "" then y else s
  | none => y

/-- JavaScript `x || y` on two optional strings (`undefined` when both are
falsy). -/
def jsOrStrOpt (x y : Option String) : Option String :=
  match x with
  | some s => if s = "" then (match y with | some t => if t = "" then none else some t | none => none) else some s
  | none => match y with | some t => if t = "" then none else some t | none => none

/-- The two Raydium program ids hard-coded in `RAYDIUM_PROGRAM_IDS`. -/
def raydiumProgramIds : List String :=
  ["675kPX9MHTjS2zt1qfr1NYHuzeLXfQM9H24wFSUt1Nd",
   "RVKd61ztZW9JU7V2aU7D1JQjoXnR8nDzWnRmN7bP2Ce"]

/-- `containsRaydiumProgram`. -/
def containsRaydiumProgram (programIds : Option (List String)) : Bool :=
  match programIds with
  | none => false
  | some ids => ids.any (fun id => raydiumProgramIds.contains id)

/-- Result record of `computeSplTokenDelta`. -/
structure TokenChange where
  mint : String
  amount : ℤ
  symbol : String
  decimals : ℕ
  counterparty : String
  direction : String
  deriving DecidableEq, Repr

/-- Inner loop of `computeSplTokenDelta`: first post-balance of the owner
whose (owner, mint)-matched pre/post delta is nonzero. -/
def splTokenDeltaLoop (pre : List TokenBalance) (ownerAddress : String) :
    List TokenBalance → Option TokenChange
  | [] => none
  | pb :: rest =>
    if pb.owner ≠ some ownerAddress then splTokenDeltaLoop pre ownerAddress rest
    else
      let matchingPre := pre.find?
        (fun p => p.owner == some ownerAddress && p.mint == pb.mint)
      let preAmount : ℤ :=
        ((matchingPre.bind (fun p => p.amount)).getD "0" |> parseBigInt).getD 0
      let postAmount : ℤ := (parseBigInt (pb.amount.getD "0")).getD 0
      let delta := postAmount - preAmount
      if delta ≠ 0 then
        some { mint := pb.mint
               amount := |delta|
               symbol := "SPL"
               decimals := pb.decimals.getD 0
               counterparty := (matchingPre.bind (fun p => p.owner)).getD ownerAddress
               direction := if delta < 0 then "out" else "in" }
      else splTokenDeltaLoop pre ownerAddress rest

/-- `computeSplTokenDelta` of the Solana adapter. -/
def computeSplTokenDelta (meta : SolMeta) (ownerAddress : String) : Option TokenChange :=
  splTokenDeltaLoop meta.preTokenBalances ownerAddress meta.postTokenBalances

/-- `SolanaAdapter.parseTransaction`.  The amount starts as
`Number(lamports) / 1e9` — the lamport value converted to SOL by
floating-point division, modelled as exact rational division (exact in
double precision at the magnitudes the claims use, and in any case distinct
from the lamport value itself whenever the delta is nonzero).  A Jupiter
swap decomposition overrides and returns early (before the price lookup);
otherwise a Raydium program id flips the type to swap, an SPL balance delta
overrides symbol/amount, and the injected price service (`priceLookup`,
returning `none` on failure, which the source catches) fills `priceUSD`. -/
def solanaParseTransaction (priceLookup : String → ℤ → Option ℚ)
    (rawTx : SolRawTransaction) : ParsedTransaction :=
  let lamports : ℤ :=
    match rawTx.value with
    | none => 0
    | some s => if s = "" then 0 else (parseBigInt s).getD 0
  let solAmount : ℚ := (lamports : ℚ) / 1000000000
  let parsed : ParsedTransaction :=
    { hash := rawTx.hash
      chain := "solana"
      type := .transfer
      fromAddr := rawTx.fromAddr
      tokenSymbol := "SOL"
      amount := solAmount
      status := rawTx.status
      feeAmount := match rawTx.fee with
        | some s => if s = "" then none else some s
        | none => none
      toAddr := match rawTx.toAddr with
        | some s => if s = "" then none else some s
        | none => none }
  match rawTx.rawData.bind (fun rd => rd.swapAttributes) with
  | some (primary :: _) =>
    { parsed with
      type := .swap
      tokenSymbol := jsOrStr primary.outSymbol (jsOrStr primary.inSymbol "SWAP")
      amount := match primary.outAmount with
        | some v => (v : ℚ)
        | none => match primary.exactOutAmount with
          | some v => (v : ℚ)
          | none => parsed.amount
      tokenAddress := jsOrStrOpt primary.outMint primary.inMint }
  | _ =>
    let parsed1 :=
      if containsRaydiumProgram (rawTx.rawData.map (fun rd => rd.programIds)) then
        { parsed with type := .swap }
      else parsed
    let parsed2 :=
      match rawTx.rawData.bind (fun rd => rd.meta) with
      | some meta =>
        match computeSplTokenDelta meta rawTx.fromAddr with
        | some tc =>
          { parsed1 with
            tokenSymbol := tc.symbol
            tokenAddress := some tc.mint
            amount := (tc.amount : ℚ)
            toAddr := some tc.counterparty }
        | none => parsed1
      | none => parsed1
    { parsed2 with priceUSD := priceLookup parsed2.tokenSymbol rawTx.timestamp }

/-- The raw transaction of the repository's own `parseTransaction` unit test
("should parse basic SOL transfer", solana.adapter.test.ts): lamport value
"5000", meta with empty token-balance lists, no swap attributes.  The test
asserts `amount: '5000'` on the parsed result. -/
def c5TestRawTx : SolRawTransaction :=
  { hash := "signature123"
    timestamp := 1700000000000
    fromAddr := "8qJSyQprMC57TWKaYEmetUR3UUiTP2M3hXdcvFhkZdmv"
    value := some "5000"
    status := "success"
    rawData := some { meta := some {} } }

/-- Acquisition transaction of the C1 scenario: amount "1.0" at priceUSD 2000,
timestamp 2023-01-01 (epoch ms). -/
def c1Acq : Transaction :=
  { id := "1", tokenSymbol := "ETH", type := .buy, amount := 1,
    priceUSD := some 2000, timestamp := 1672531200000 }

/-- Disposition transaction of the C1 scenario: amount "-0.5" at priceUSD 2500,
timestamp 2023-06-01 (epoch ms). -/
def c1Disp : Transaction :=
  { id := "2", tokenSymbol := "ETH", type := .sell, amount := -(1/2),
    priceUSD := some 2500, timestamp := 1685577600000 }

/-- Options of the C1 scenario. -/
def c1Opts : CalculationOptions := { method := .FIFO, taxYear := some 2023 }

/-- First acquisition of the C2 scenario: quantity 2 at price 2000, at time `t`. -/
def c2Acq1 (t : ℤ) : Transaction :=
  { id := "1", tokenSymbol := "ETH", type := .buy, amount := 2,
    priceUSD := some 2000, timestamp := t }

/-- Second acquisition of the C2 scenario: quantity 1.5 at price 2500, at time `t`. -/
def c2Acq2 (t : ℤ) : Transaction :=
  { id := "2", tokenSymbol := "ETH", type := .buy, amount := 3/2,
    priceUSD := some 2500, timestamp := t }

/-- Disposition of the C2 scenario: quantity 1 at price 3000, at time `t`. -/
def c2Disp (t : ℤ) : Transaction :=
  { id := "3", tokenSymbol := "ETH", type := .sell, amount := -1,
    priceUSD := some 3000, timestamp := t }

/-- Acquisition of the C3 scenario: one lot of quantity 1 with total cost
basis 1000 USD (price 1000). -/
def c3Acq : Transaction :=
  { id := "a1", tokenSymbol := "ETH", type := .buy, amount := 1,
    priceUSD := some 1000, timestamp := 1672531200000 }

/-- Disposition of the C3 scenario: quantity 0.5 at price `p`. -/
def c3Disp (p : ℚ) : Transaction :=
  { id := "d1", tokenSymbol := "ETH", type := .sell, amount := -(1/2),
    priceUSD := some p, timestamp := 1685577600000 }

/-- Options of the C3 scenario. -/
def c3Opts : CalculationOptions := { method := .FIFO, taxYear := some 2023 }

/-- Acquisition of the C4 scenario: quantity `a`, with `priceUSD` missing. -/
def c4Acq (a : ℚ) (t : ℤ) : Transaction :=
  { id := "a1", tokenSymbol := "T", type := .buy, amount := a,
    priceUSD := none, timestamp := t }

/-- Disposition of the C4 scenario: quantity `d` at price `p`, where the
calling scenario takes `d` larger than the whole acquired supply `a`. -/
def c4Disp (d p : ℚ) (t : ℤ) : Transaction :=
  { id := "d1", tokenSymbol := "T", type := .sell, amount := -d,
    priceUSD := some p, timestamp := t }

/-- Options of the C4 scenario. -/
def c4Opts : CalculationOptions := { method := .FIFO, taxYear := some 2023 }

/-- One USDC transaction, foreign to the ETH batch of the C7 witness. -/
def c7ExtraTx : Transaction :=
  { id := "b1", tokenSymbol := "USDC", type := .buy, amount := 5,
    priceUSD := some 1, timestamp := 0 }

/-- Shared example configuration for the C9 scenario. -/
def cfgA : BlockchainConfig := { rpcUrl := "https://rpc.example" }

end CryptoTax

namespace CryptoTax

/-- Unfolding lemma for `matchDisposition`: the lot walk stops when the
remaining disposal amount is exhausted or the cursor passed the end of the
entries list (`while` condition false). -/
theorem matchDisposition_stop (disp : Transaction) (opts : CalculationOptions)
    (entries : List CostBasisEntry) (i : ℕ) (rem : ℚ)
    (hyp : ¬(0 < rem ∧ i < entries.length)) :
    matchDisposition disp opts entries i rem = (entries, i) := by
  rw [matchDisposition, dif_neg hyp]

/-- Unfolding lemma for `matchDisposition`: an already-disposed entry at the
cursor is skipped. -/
theorem matchDisposition_skip (disp : Transaction) (opts : CalculationOptions)
    (entries : List CostBasisEntry) (i : ℕ) (rem : ℚ)
    (h0 : 0 < rem) (h2 : i < entries.length)
    (hd : (entries.get ⟨i, h2⟩).isDisposed = true) :
    matchDisposition disp opts entries i rem =
      matchDisposition disp opts entries (i + 1) rem := by
  rw [matchDisposition, dif_pos (And.intro h0 h2)]
  split
  · rfl
  · simp_all

/-- Unfolding lemma for `matchDisposition`: a live lot not larger than the
remaining disposal amount is consumed whole. -/
theorem matchDisposition_full (disp : Transaction) (opts : CalculationOptions)
    (entries : List CostBasisEntry) (i : ℕ) (rem : ℚ)
    (h0 : 0 < rem) (h2 : i < entries.length)
    (hd : (entries.get ⟨i, h2⟩).isDisposed = false)
    (hle : (entries.get ⟨i, h2⟩).amount ≤ rem) :
    matchDisposition disp opts entries i rem =
      matchDisposition disp opts
        (entries.set i { entries.get ⟨i, h2⟩ with isDisposed := true } ++
          [fullDispositionEntry disp opts i (entries.get ⟨i, h2⟩)])
        (i + 1) (rem - (entries.get ⟨i, h2⟩).amount) := by
  rw [matchDisposition, dif_pos (And.intro h0 h2)]
  split
  · simp_all
  · rw [if_pos hle]

/-- Unfolding lemma for `matchDisposition`: a live lot strictly larger than
the remaining disposal amount is consumed partially and the walk ends with the
cursor unmoved. -/
theorem matchDisposition_partialStep (disp : Transaction) (opts : CalculationOptions)
    (entries : List CostBasisEntry) (i : ℕ) (rem : ℚ)
    (h0 : 0 < rem) (h2 : i < entries.length)
    (hd : (entries.get ⟨i, h2⟩).isDisposed = false)
    (hgt : ¬(entries.get ⟨i, h2⟩).amount ≤ rem) :
    matchDisposition disp opts entries i rem =
      (entries.set i (partialLotUpdate (entries.get ⟨i, h2⟩) rem) ++
        [partialDispositionEntry disp opts i (entries.get ⟨i, h2⟩) rem], i) := by
  rw [matchDisposition, dif_pos (And.intro h0 h2)]
  split
  · simp_all
  · rw [if_neg hgt]

/-- C1: the two-transaction FIFO scenario yields exactly one per-token result
with totalAcquired "1", totalDisposed "0.5", remainingQuantity "0.5",
realizedGainLoss "250" and costBasis "1000" (the source renders these rational
values with `toString`, producing exactly those strings). -/
theorem c1_end_to_end :
    (calculateCostBasis [c1Acq, c1Disp] c1Opts).map
      (fun r => (r.tokenSymbol, r.totalAcquired, r.totalDisposed, r.remainingQuantity,
        r.realizedGainLoss, r.costBasis)) =
      [("ETH", 1, 1/2, 1/2, 250, 1000)] := by
  have h3 : applyCostBasisMethod [c1Acq] [c1Disp] c1Opts =
      [partialLotUpdate (initialEntry c1Opts c1Acq) (1/2),
       partialDispositionEntry c1Disp c1Opts 0 (initialEntry c1Opts c1Acq) (1/2)] := by
    show (matchDisposition c1Disp c1Opts [initialEntry c1Opts c1Acq] 0 |c1Disp.amount|).1 = _
    have habs : |c1Disp.amount| = 1/2 := by norm_num [c1Disp]
    rw [habs, matchDisposition_partialStep c1Disp c1Opts _ 0 (1/2) (by norm_num) (by norm_num)
      (by rfl) (by norm_num [initialEntry, c1Acq, c1Opts])]
    rfl
  have h4 : calculateTokenCostBasis "ETH" [c1Acq, c1Disp] c1Opts =
      { tokenSymbol := "ETH", totalAcquired := 1, totalDisposed := 1/2,
        remainingQuantity := 1/2, realizedGainLoss := 250, costBasis := 1000,
        entries := [partialLotUpdate (initialEntry c1Opts c1Acq) (1/2),
          partialDispositionEntry c1Disp c1Opts 0 (initialEntry c1Opts c1Acq) (1/2)] } := by
    have hacq : acquisitionsOf [c1Acq, c1Disp] = [c1Acq] := rfl
    have hdisp : dispositionsOf [c1Acq, c1Disp] = [c1Disp] := by
      unfold dispositionsOf
      norm_num [List.filter, c1Acq, c1Disp, isDispositionType]
    have hsort : sortAcquisitions [c1Acq] c1Opts.method = [c1Acq] := rfl
    simp only [calculateTokenCostBasis]
    rw [hacq, hdisp, hsort, h3]
    norm_num [partialLotUpdate, partialDispositionEntry, initialEntry, c1Acq, c1Disp, c1Opts]
    rw [abs_of_pos (by norm_num : (0:ℚ) < 1/2)]
    norm_num
  have h5 : calculateCostBasis [c1Acq, c1Disp] c1Opts =
      [calculateTokenCostBasis "ETH" [c1Acq, c1Disp] c1Opts] := rfl
  rw [h5, h4]
  rfl

/-- C2: with acquisitions (t1, qty 2, price 2000) and (t2 > t1, qty 1.5,
price 2500) and one disposition of qty 1 at price 3000, the engine reports
realized gain 1000 under FIFO (oldest lot first) and 500 under LIFO (newest
lot first): `sortAcquisitions` orders ascending for FIFO and descending for
LIFO before lots are matched. -/
theorem c2_fifo_vs_lifo (t1 t2 t3 : ℤ) (h : t1 < t2) :
    (calculateCostBasis [c2Acq1 t1, c2Acq2 t2, c2Disp t3]
        { method := .FIFO, taxYear := some 2024 }).map (fun r => r.realizedGainLoss) = [1000] ∧
    (calculateCostBasis [c2Acq1 t1, c2Acq2 t2, c2Disp t3]
        { method := .LIFO, taxYear := some 2024 }).map (fun r => r.realizedGainLoss) = [500] := by
  have hdisp : ∀ opts : CalculationOptions,
      dispositionsOf [c2Acq1 t1, c2Acq2 t2, c2Disp t3] = [c2Disp t3] := fun _ => rfl
  constructor
  · have hsort : sortAcquisitions [c2Acq1 t1, c2Acq2 t2] .FIFO = [c2Acq1 t1, c2Acq2 t2] := by
      simp [sortAcquisitions, stableSortBy, insertSorted, acquisitionLE, c2Acq1, c2Acq2, h.le]
    have h3 : applyCostBasisMethod [c2Acq1 t1, c2Acq2 t2] [c2Disp t3]
        { method := .FIFO, taxYear := some 2024 } =
        [partialLotUpdate (initialEntry { method := .FIFO, taxYear := some 2024 } (c2Acq1 t1)) 1,
         initialEntry { method := .FIFO, taxYear := some 2024 } (c2Acq2 t2),
         partialDispositionEntry (c2Disp t3) { method := .FIFO, taxYear := some 2024 } 0
           (initialEntry { method := .FIFO, taxYear := some 2024 } (c2Acq1 t1)) 1] := by
      show (matchDisposition (c2Disp t3) _ _ 0 |(c2Disp t3).amount|).1 = _
      have habs : |(c2Disp t3).amount| = 1 := by norm_num [c2Disp]
      rw [habs, matchDisposition_partialStep _ _ _ 0 1 (by norm_num) (by norm_num)
        (by rfl) (by norm_num [initialEntry, c2Acq1])]
      rfl
    have h5 : calculateCostBasis [c2Acq1 t1, c2Acq2 t2, c2Disp t3]
        { method := .FIFO, taxYear := some 2024 } =
        [calculateTokenCostBasis "ETH" [c2Acq1 t1, c2Acq2 t2, c2Disp t3]
          { method := .FIFO, taxYear := some 2024 }] := rfl
    rw [h5]
    simp only [calculateTokenCostBasis, List.map]
    rw [show acquisitionsOf [c2Acq1 t1, c2Acq2 t2, c2Disp t3] = [c2Acq1 t1, c2Acq2 t2] from rfl,
      hdisp { method := .FIFO, taxYear := some 2024 }, hsort, h3]
    norm_num [partialLotUpdate, partialDispositionEntry, initialEntry, c2Acq1, c2Acq2, c2Disp]
  · have hsort : sortAcquisitions [c2Acq1 t1, c2Acq2 t2] .LIFO = [c2Acq2 t2, c2Acq1 t1] := by
      simp [sortAcquisitions, stableSortBy, insertSorted, acquisitionLE, c2Acq1, c2Acq2,
        not_le.mpr h]
    have h3 : applyCostBasisMethod [c2Acq2 t2, c2Acq1 t1] [c2Disp t3]
        { method := .LIFO, taxYear := some 2024 } =
        [partialLotUpdate (initialEntry { method := .LIFO, taxYear := some 2024 } (c2Acq2 t2)) 1,
         initialEntry { method := .LIFO, taxYear := some 2024 } (c2Acq1 t1),
         partialDispositionEntry (c2Disp t3) { method := .LIFO, taxYear := some 2024 } 0
           (initialEntry { method := .LIFO, taxYear := some 2024 } (c2Acq2 t2)) 1] := by
      show (matchDisposition (c2Disp t3) _ _ 0 |(c2Disp t3).amount|).1 = _
      have habs : |(c2Disp t3).amount| = 1 := by norm_num [c2Disp]
      rw [habs, matchDisposition_partialStep _ _ _ 0 1 (by norm_num) (by norm_num)
        (by rfl) (by norm_num [initialEntry, c2Acq2])]
      rfl
    have h5 : calculateCostBasis [c2Acq1 t1, c2Acq2 t2, c2Disp t3]
        { method := .LIFO, taxYear := some 2024 } =
        [calculateTokenCostBasis "ETH" [c2Acq1 t1, c2Acq2 t2, c2Disp t3]
          { method := .LIFO, taxYear := some 2024 }] := rfl
    rw [h5]
    simp only [calculateTokenCostBasis, List.map]
    rw [show acquisitionsOf [c2Acq1 t1, c2Acq2 t2, c2Disp t3] = [c2Acq1 t1, c2Acq2 t2] from rfl,
      hdisp { method := .LIFO, taxYear := some 2024 }, hsort, h3]
    norm_num [partialLotUpdate, partialDispositionEntry, initialEntry, c2Acq1, c2Acq2, c2Disp]

/-- Witness for C2 at the concrete timestamps 0 < 1, disposition at time 2. -/
theorem c2_fifo_vs_lifo_witness :
    (0:ℤ) < 1 ∧
    ((calculateCostBasis [c2Acq1 0, c2Acq2 1, c2Disp 2]
        { method := .FIFO, taxYear := some 2024 }).map (fun r => r.realizedGainLoss) = [1000] ∧
     (calculateCostBasis [c2Acq1 0, c2Acq2 1, c2Disp 2]
        { method := .LIFO, taxYear := some 2024 }).map (fun r => r.realizedGainLoss) = [500]) :=
  ⟨by norm_num, c2_fifo_vs_lifo 0 1 2 (by norm_num)⟩


/-- C3: matching a disposition of quantity 0.5 against a single lot of
quantity 1 with cost basis 1000 mutates the lot in place to amount 0.5 and
costBasisUSD 500 with `isDisposed = false`, and appends one new disposition
entry of amount -0.5 whose `costBasisUSD` is the realized gain/loss
`(p - 1000) * 0.5` for the consumed 0.5 units. -/
theorem c3_partial_consumption (p : ℚ) :
    (applyCostBasisMethod [c3Acq] [c3Disp p] c3Opts).map
      (fun e => (e.amount, e.costBasisUSD, e.isDisposed)) =
      [(1/2, 500, false), (-(1/2), (p - 1000) * (1/2), true)] := by
  have h3 : applyCostBasisMethod [c3Acq] [c3Disp p] c3Opts =
      [partialLotUpdate (initialEntry c3Opts c3Acq) (1/2),
       partialDispositionEntry (c3Disp p) c3Opts 0 (initialEntry c3Opts c3Acq) (1/2)] := by
    show (matchDisposition (c3Disp p) c3Opts [initialEntry c3Opts c3Acq] 0 |(c3Disp p).amount|).1 = _
    have habs : |(c3Disp p).amount| = 1/2 := by norm_num [c3Disp]
    rw [habs, matchDisposition_partialStep _ _ _ 0 (1/2) (by norm_num) (by norm_num)
      (by rfl) (by norm_num [initialEntry, c3Acq])]
    rfl
  rw [h3]
  norm_num [partialLotUpdate, partialDispositionEntry, initialEntry, c3Acq, c3Disp, c3Opts]

/-- C4: the engine is a total function (the source raises no error on any
path): an acquisition with missing `priceUSD` yields a lot with cost basis
`a * 0 = 0`, and a disposition of `d > a` is silently truncated at the
available supply — the emitted disposition entries stop at `-a`, no exception
is raised and no flag is set; the summary still reports `totalDisposed = d`
and a (silently negative) `remainingQuantity = a - d`. -/
theorem c4_missing_price_and_overdisposal (a d p : ℚ) (t1 t2 : ℤ)
    (h0 : 0 < a) (hlt : a < d) :
    (calculateCostBasis [c4Acq a t1, c4Disp d p t2] c4Opts).map
      (fun r => (r.totalAcquired, r.totalDisposed, r.remainingQuantity,
        r.realizedGainLoss, r.costBasis,
        r.entries.map (fun e => (e.amount, e.costBasisUSD, e.isDisposed)))) =
      [(a, d, a - d, p * a, 0, [(a, 0, true), (-a, p * a, true)])] := by
  have hd0 : 0 < d := h0.trans hlt
  have hdisp : dispositionsOf [c4Acq a t1, c4Disp d p t2] = [c4Disp d p t2] := by
    simp [dispositionsOf, List.filter, c4Acq, c4Disp, isDispositionType, isAcquisitionType,
      show -d < 0 by linarith]
  have hacq : acquisitionsOf [c4Acq a t1, c4Disp d p t2] = [c4Acq a t1] := rfl
  have hsort : sortAcquisitions [c4Acq a t1] c4Opts.method = [c4Acq a t1] := rfl
  have h3 : applyCostBasisMethod [c4Acq a t1] [c4Disp d p t2] c4Opts =
      [{ initialEntry c4Opts (c4Acq a t1) with isDisposed := true },
       fullDispositionEntry (c4Disp d p t2) c4Opts 0 (initialEntry c4Opts (c4Acq a t1))] := by
    show (matchDisposition (c4Disp d p t2) c4Opts [initialEntry c4Opts (c4Acq a t1)] 0
      |(c4Disp d p t2).amount|).1 = _
    have habs : |(c4Disp d p t2).amount| = d := by
      simp [c4Disp, abs_of_pos hd0]
    rw [habs, matchDisposition_full _ _ _ 0 d hd0 (by norm_num)
      (by rfl) (by simpa [initialEntry, c4Acq] using hlt.le)]
    rw [matchDisposition_skip _ _ _ 1 _ (by simp [initialEntry, c4Acq]; linarith) (by norm_num)
      (by rfl)]
    rw [matchDisposition_stop _ _ _ 2 _ (by norm_num)]
    rfl
  have h5 : calculateCostBasis [c4Acq a t1, c4Disp d p t2] c4Opts =
      [calculateTokenCostBasis "T" [c4Acq a t1, c4Disp d p t2] c4Opts] := rfl
  rw [h5]
  simp only [calculateTokenCostBasis, List.map]
  rw [hacq, hdisp, hsort, h3]
  norm_num [fullDispositionEntry, initialEntry, c4Acq, c4Disp, c4Opts,
    abs_of_pos h0, abs_of_pos hd0]

/-- Witness for C4 at `a = 1`, `d = 2`, `p = 5`. -/
theorem c4_missing_price_and_overdisposal_witness :
    (0:ℚ) < 1 ∧ (1:ℚ) < 2 ∧
    (calculateCostBasis [c4Acq 1 10, c4Disp 2 5 20] c4Opts).map
      (fun r => (r.totalAcquired, r.totalDisposed, r.remainingQuantity,
        r.realizedGainLoss, r.costBasis,
        r.entries.map (fun e => (e.amount, e.costBasisUSD, e.isDisposed)))) =
      [(1, 2, 1 - 2, 5 * 1, 0, [(1, 0, true), (-1, 5 * 1, true)])] :=
  ⟨by norm_num, by norm_num, c4_missing_price_and_overdisposal 1 2 5 10 20 (by norm_num) (by norm_num)⟩


/-- Helper for C7: `find?` of a `== s` test returns `s` itself exactly when
`s` occurs in the list. -/
theorem find?_beq_eq (l : List String) (s : String) :
    l.find? (fun x => x == s) = if s ∈ l then some s else none := by
  induction l with
  | nil => simp
  | cons a l ih =>
    by_cases hx : a = s
    · subst hx
      simp [List.find?]
    · rw [List.find?_cons_of_neg _ (by simpa using hx), ih]
      by_cases hs : s ∈ l
      · rw [if_pos hs, if_pos (List.mem_cons_of_mem a hs)]
      · rw [if_neg hs, if_neg (by simp [hs, Ne.symm hx])]

/-- Helper for C7: membership is invariant under first-appearance
deduplication. -/
theorem mem_dedupKeepFirst (s : String) (l : List String) :
    s ∈ dedupKeepFirst l ↔ s ∈ l := by
  induction l with
  | nil => simp [dedupKeepFirst]
  | cons a l ih =>
    by_cases h : s = a <;> simp [dedupKeepFirst, List.mem_filter, ih, h]

/-- Helper for C7: the result `calculateCostBasis` produces for token `s` is
`calculateTokenCostBasis` of exactly the transactions bearing symbol `s`, and
no result exists when no transaction bears `s`. -/
theorem find?_calculateCostBasis (txs : List Transaction) (opts : CalculationOptions)
    (s : String) :
    (calculateCostBasis txs opts).find? (fun r => r.tokenSymbol == s) =
      if s ∈ txs.map (fun tx => tx.tokenSymbol) then
        some (calculateTokenCostBasis s (txs.filter (fun tx => tx.tokenSymbol == s)) opts)
      else none := by
  unfold calculateCostBasis tokenSymbolsInOrder
  rw [List.find?_map]
  have hp : ((fun r : CostBasisResult => r.tokenSymbol == s) ∘
      (fun symbol => calculateTokenCostBasis symbol
        (txs.filter (fun tx => tx.tokenSymbol == symbol)) opts)) =
      fun symbol => symbol == s := rfl
  rw [hp, find?_beq_eq]
  by_cases hmem : s ∈ dedupKeepFirst (txs.map fun tx => tx.tokenSymbol)
  · rw [if_pos hmem, if_pos ((mem_dedupKeepFirst _ _).1 hmem)]
    rfl
  · rw [if_neg hmem, if_neg (fun hh => hmem ((mem_dedupKeepFirst _ _).2 hh))]
    rfl

/-- C7: per-token isolation.  If two input batches contain exactly the same
transactions of token `s` (in the same order), the engine's result for `s` is
identical — in particular adding or removing transactions of any other token
leaves token `s`'s totals, entries and realized gain/loss unchanged. -/
theorem c7_token_isolation (txs₁ txs₂ : List Transaction) (opts : CalculationOptions)
    (s : String)
    (hfilter : txs₁.filter (fun tx => tx.tokenSymbol == s) =
      txs₂.filter (fun tx => tx.tokenSymbol == s)) :
    (calculateCostBasis txs₁ opts).find? (fun r => r.tokenSymbol == s) =
      (calculateCostBasis txs₂ opts).find? (fun r => r.tokenSymbol == s) := by
  have hmem : ∀ txs : List Transaction,
      (s ∈ txs.map (fun tx => tx.tokenSymbol)) ↔
        txs.filter (fun tx => tx.tokenSymbol == s) ≠ [] := by
    intro txs
    induction txs with
    | nil => simp
    | cons a l ih =>
      by_cases h : a.tokenSymbol = s
      · simp [List.filter_cons, h]
      · simp [List.filter_cons, h, ih, Ne.symm h]
  have hiff : (s ∈ txs₁.map (fun tx => tx.tokenSymbol)) ↔
      (s ∈ txs₂.map (fun tx => tx.tokenSymbol)) := by
    rw [hmem txs₁, hmem txs₂, hfilter]
  rw [find?_calculateCostBasis, find?_calculateCostBasis, hfilter]
  by_cases h1 : s ∈ txs₁.map (fun tx => tx.tokenSymbol)
  · rw [if_pos h1, if_pos (hiff.1 h1)]
  · rw [if_neg h1, if_neg (fun hh => h1 (hiff.2 hh))]

/-- Witness for C7: adding a USDC transaction to a one-ETH-transaction batch
leaves the ETH result unchanged. -/
theorem c7_token_isolation_witness :
    ([c1Acq].filter (fun tx => tx.tokenSymbol == "ETH") =
      [c1Acq, c7ExtraTx].filter (fun tx => tx.tokenSymbol == "ETH")) ∧
    ((calculateCostBasis [c1Acq] c1Opts).find? (fun r => r.tokenSymbol == "ETH") =
      (calculateCostBasis [c1Acq, c7ExtraTx] c1Opts).find? (fun r => r.tokenSymbol == "ETH")) :=
  ⟨rfl, c7_token_isolation _ _ c1Opts "ETH" rfl⟩


/-- Helper: sum of `f` over a list with one position replaced. -/
theorem sumMap_set (f : CostBasisEntry → ℚ) :
    ∀ (l : List CostBasisEntry) (i : ℕ) (x : CostBasisEntry) (h : i < l.length),
      ((l.set i x).map f).sum = (l.map f).sum - f (l.get ⟨i, h⟩) + f x := by
  intro l
  induction l with
  | nil => intro i x h; simp at h
  | cons a l ih =>
    intro i x h
    cases i with
    | zero => simp [List.set]; ring
    | succ j =>
      have hj : j < l.length := by simpa using h
      have hset : ((a :: l).set (j + 1) x) = a :: l.set j x := rfl
      have hg : (a :: l).get ⟨j + 1, h⟩ = l.get ⟨j, hj⟩ := rfl
      rw [hset, hg]
      simp only [List.map_cons, List.sum_cons]
      rw [ih j x hj]
      ring

/-- Helper: `WellFormedEntries` restricted along `set`/append used by the lot
walk. -/
theorem wellFormed_set_append (l : List CostBasisEntry) (i : ℕ) (x y : CostBasisEntry)
    (hwf : WellFormedEntries l) (hx : x.isDisposed = false → 0 ≤ x.amount ∧ x.disposalTxnId = none)
    (hy : y.isDisposed = true) :
    WellFormedEntries (l.set i x ++ [y]) := by
  intro e he hlive
  rcases List.mem_append.1 he with he | he
  · rcases List.mem_or_eq_of_mem_set he with he | rfl
    · exact hwf e he hlive
    · exact hx hlive
  · rcases List.mem_singleton.1 he with rfl
    rw [hy] at hlive
    cases hlive

/-- Helper: the lot walk preserves `WellFormedEntries` and conserves
disposed-magnitude plus live supply: the magnitude it adds to disposition
entries is exactly the supply it removes from live lots. -/
theorem matchDisposition_conservation (disp : Transaction) (opts : CalculationOptions) :
    ∀ (entries : List CostBasisEntry) (i : ℕ) (rem : ℚ),
      WellFormedEntries entries →
      WellFormedEntries (matchDisposition disp opts entries i rem).1 ∧
      dispEntrySum (matchDisposition disp opts entries i rem).1 +
        liveLotSum (matchDisposition disp opts entries i rem).1 =
        dispEntrySum entries + liveLotSum entries := by
  intro entries i rem
  induction entries, i, rem using matchDisposition.induct disp opts with
  | case1 entries i rem h hd ih =>
    intro hwf
    rw [matchDisposition_skip disp opts entries i rem h.1 h.2 hd]
    exact ih hwf
  | case2 entries i rem h hd entry hle ih =>
    intro hwf
    rw [matchDisposition_full disp opts entries i rem h.1 h.2 hd hle]
    have hentry := hwf (entries.get ⟨i, h.2⟩) (entries.get_mem _ _) hd
    rw [List.get_eq_getElem] at hentry
    have hwfnew : WellFormedEntries
        (entries.set i { entries.get ⟨i, h.2⟩ with isDisposed := true } ++
          [fullDispositionEntry disp opts i (entries.get ⟨i, h.2⟩)]) := by
      apply wellFormed_set_append _ _ _ _ hwf
      · intro hlive
        cases hlive
      · rfl
    obtain ⟨ihwf, ihsum⟩ := ih hwfnew
    refine ⟨ihwf, ihsum.trans ?_⟩
    have hent : entry = entries[i] := List.get_eq_getElem entries ⟨i, h.2⟩
    unfold dispEntrySum liveLotSum
    simp only [List.map_append, List.sum_append]
    rw [sumMap_set _ entries i _ h.2, sumMap_set _ entries i _ h.2]
    rw [List.get_eq_getElem] at hd
    simp [hent, fullDispositionEntry, hd, hentry.2, abs_of_nonneg hentry.1]
  | case3 entries i rem h hd entry hgt =>
    intro hwf
    rw [matchDisposition_partialStep disp opts entries i rem h.1 h.2 hd hgt]
    have hentry := hwf (entries.get ⟨i, h.2⟩) (entries.get_mem _ _) hd
    rw [List.get_eq_getElem] at hentry
    have hrem : rem < entries[i].amount := not_le.mp hgt
    constructor
    · apply wellFormed_set_append _ _ _ _ hwf
      · intro hlive
        refine ⟨by simp [partialLotUpdate]; linarith, by simp [partialLotUpdate, hentry.2]⟩
      · rfl
    · unfold dispEntrySum liveLotSum
      simp only [List.map_append, List.sum_append]
      rw [sumMap_set _ entries i _ h.2, sumMap_set _ entries i _ h.2]
      have hent : entry = entries[i] := List.get_eq_getElem entries ⟨i, h.2⟩
      rw [List.get_eq_getElem] at hd
      simp [hent, partialLotUpdate, partialDispositionEntry, hd, hentry.2,
        abs_of_nonneg (le_of_lt h.1)]
  | case4 entries i rem h =>
    intro hwf
    rw [matchDisposition_stop disp opts entries i rem h]
    exact ⟨hwf, rfl⟩


/-- Helper: under `WellFormedEntries` the live lot supply is non-negative. -/
theorem liveLotSum_nonneg : ∀ l : List CostBasisEntry, WellFormedEntries l → 0 ≤ liveLotSum l := by
  intro l
  induction l with
  | nil => intro _; simp [liveLotSum]
  | cons a l ih =>
    intro hwf
    have h2 := ih (fun e he hl => hwf e (List.mem_cons_of_mem a he) hl)
    have h1 : (0:ℚ) ≤ if a.isDisposed then 0 else a.amount := by
      cases hb : a.isDisposed
      · simpa [hb] using (hwf a (List.mem_cons_self a l) hb).1
      · simp [hb]
    simp only [liveLotSum, List.map_cons, List.sum_cons] at h2 ⊢
    exact add_nonneg h1 h2

/-- Helper: walking all dispositions preserves well-formedness and conserves
disposed magnitude plus live supply. -/
theorem dispositionFold_conservation (opts : CalculationOptions) :
    ∀ (disps : List Transaction) (st : List CostBasisEntry × ℕ),
      WellFormedEntries st.1 →
      WellFormedEntries ((disps.foldl
        (fun st disp => matchDisposition disp opts st.1 st.2 |disp.amount|) st).1) ∧
      dispEntrySum ((disps.foldl
          (fun st disp => matchDisposition disp opts st.1 st.2 |disp.amount|) st).1) +
        liveLotSum ((disps.foldl
          (fun st disp => matchDisposition disp opts st.1 st.2 |disp.amount|) st).1) =
        dispEntrySum st.1 + liveLotSum st.1 := by
  intro disps
  induction disps with
  | nil => intro st h; exact ⟨h, rfl⟩
  | cons d rest ih =>
    intro st hwf
    simp only [List.foldl_cons]
    obtain ⟨hw1, hs1⟩ := matchDisposition_conservation d opts st.1 st.2 |d.amount| hwf
    obtain ⟨hw2, hs2⟩ := ih (matchDisposition d opts st.1 st.2 |d.amount|) hw1
    exact ⟨hw2, by rw [hs2, hs1]⟩

/-- Helper: lot entries materialised from acquisitions carry no
`disposalTxnId`, so their disposed magnitude is zero. -/
theorem dispEntrySum_initial (opts : CalculationOptions) :
    ∀ acqs : List Transaction, dispEntrySum (acqs.map (initialEntry opts)) = 0 := by
  intro acqs
  induction acqs with
  | nil => simp [dispEntrySum]
  | cons a l ih =>
    simp only [dispEntrySum, List.map_cons, List.sum_cons] at ih ⊢
    simp [initialEntry]
    rw [← List.map_map]
    exact ih

/-- Helper: the live supply of the initial lot entries is the sum of the
acquisition amounts. -/
theorem liveLotSum_initial (opts : CalculationOptions) :
    ∀ acqs : List Transaction,
      liveLotSum (acqs.map (initialEntry opts)) = (acqs.map (fun tx => tx.amount)).sum := by
  intro acqs
  induction acqs with
  | nil => simp [liveLotSum]
  | cons a l ih =>
    simp only [liveLotSum, List.map_cons, List.sum_cons] at ih ⊢
    simp [initialEntry]
    rw [← List.map_map]
    rw [ih]

/-- Helper: initial lot entries are well-formed when acquisition amounts are
non-negative. -/
theorem wellFormed_initial (opts : CalculationOptions) (acqs : List Transaction)
    (hnn : ∀ tx ∈ acqs, 0 ≤ tx.amount) :
    WellFormedEntries (acqs.map (initialEntry opts)) := by
  intro e he _
  obtain ⟨tx, htx, rfl⟩ := List.mem_map.1 he
  exact ⟨hnn tx htx, rfl⟩

/-- Helper: stable insertion permutes. -/
theorem insertSorted_perm (le : Transaction → Transaction → Bool) (x : Transaction) :
    ∀ l : List Transaction, (insertSorted le x l).Perm (x :: l) := by
  intro l
  induction l with
  | nil => simp [insertSorted]
  | cons y ys ih =>
    simp only [insertSorted]
    by_cases hc : le x y = true
    · rw [if_pos hc]
    · rw [if_neg hc]
      exact (ih.cons y).trans (List.Perm.swap x y ys)

/-- Helper: the stable sort permutes its input. -/
theorem stableSortBy_perm (le : Transaction → Transaction → Bool) :
    ∀ l : List Transaction, (stableSortBy le l).Perm l := by
  intro l
  induction l with
  | nil => simp [stableSortBy]
  | cons x xs ih =>
    exact (insertSorted_perm le x (stableSortBy le xs)).trans (ih.cons x)

/-- Helper: entries already marked disposed are frozen — the lot walk never
modifies them again (it only skips them). -/
theorem matchDisposition_disposed_frozen (disp : Transaction) (opts : CalculationOptions) :
    ∀ (entries : List CostBasisEntry) (i : ℕ) (rem : ℚ) (j : ℕ) (e : CostBasisEntry),
      entries[j]? = some e → e.isDisposed = true →
      (matchDisposition disp opts entries i rem).1[j]? = some e := by
  intro entries i rem
  induction entries, i, rem using matchDisposition.induct disp opts with
  | case1 entries i rem h hd ih =>
    intro j e hj he
    rw [matchDisposition_skip disp opts entries i rem h.1 h.2 hd]
    exact ih j e hj he
  | case2 entries i rem h hd entry hle ih =>
    intro j e hj he
    rw [matchDisposition_full disp opts entries i rem h.1 h.2 hd hle]
    have hjlen : j < entries.length := by
      by_contra hc
      push_neg at hc
      rw [List.getElem?_eq_none hc] at hj
      cases hj
    have hne : i ≠ j := by
      rintro rfl
      rw [List.getElem?_eq_getElem h.2] at hj
      rw [List.get_eq_getElem] at hd
      cases hj
      rw [hd] at he
      cases he
    apply ih
    · rw [List.getElem?_append, if_pos (by simpa using hjlen), List.getElem?_set, if_neg hne]
      exact hj
    · exact he
  | case3 entries i rem h hd entry hgt =>
    intro j e hj he
    rw [matchDisposition_partialStep disp opts entries i rem h.1 h.2 hd hgt]
    have hjlen : j < entries.length := by
      by_contra hc
      push_neg at hc
      rw [List.getElem?_eq_none hc] at hj
      cases hj
    have hne : i ≠ j := by
      rintro rfl
      rw [List.getElem?_eq_getElem h.2] at hj
      rw [List.get_eq_getElem] at hd
      cases hj
      rw [hd] at he
      cases he
    rw [List.getElem?_append, if_pos (by simpa using hjlen), List.getElem?_set, if_neg hne]
    exact hj
  | case4 entries i rem h =>
    intro j e hj he
    rw [matchDisposition_stop disp opts entries i rem h]
    exact hj


/-- Helper: per-token supply bound, at the level of
`calculateTokenCostBasis`. -/
theorem ctcb_supply_bound (sym : String) (l : List Transaction) (opts : CalculationOptions)
    (hnn : ∀ tx ∈ acquisitionsOf l, 0 ≤ tx.amount) :
    dispEntrySum (calculateTokenCostBasis sym l opts).entries ≤
      (calculateTokenCostBasis sym l opts).totalAcquired := by
  have hent : (calculateTokenCostBasis sym l opts).entries =
      applyCostBasisMethod (sortAcquisitions (acquisitionsOf l) opts.method)
        (dispositionsOf l) opts := rfl
  have htot : (calculateTokenCostBasis sym l opts).totalAcquired =
      ((acquisitionsOf l).map (fun tx => |tx.amount|)).sum := rfl
  have happ : applyCostBasisMethod (sortAcquisitions (acquisitionsOf l) opts.method)
      (dispositionsOf l) opts =
      ((dispositionsOf l).foldl
        (fun st disp => matchDisposition disp opts st.1 st.2 |disp.amount|)
        ((sortAcquisitions (acquisitionsOf l) opts.method).map (initialEntry opts), 0)).1 := rfl
  rw [hent, htot, happ]
  have hnns : ∀ tx ∈ sortAcquisitions (acquisitionsOf l) opts.method, 0 ≤ tx.amount :=
    fun tx htx => hnn tx ((stableSortBy_perm _ _).mem_iff.1 htx)
  obtain ⟨hwfF, hsumF⟩ := dispositionFold_conservation opts (dispositionsOf l)
    ((sortAcquisitions (acquisitionsOf l) opts.method).map (initialEntry opts), 0)
    (wellFormed_initial opts _ hnns)
  have hzero := dispEntrySum_initial opts (sortAcquisitions (acquisitionsOf l) opts.method)
  have hlive := liveLotSum_initial opts (sortAcquisitions (acquisitionsOf l) opts.method)
  have hperm : ((sortAcquisitions (acquisitionsOf l) opts.method).map
      (fun tx => tx.amount)).sum = ((acquisitionsOf l).map (fun tx => tx.amount)).sum :=
    ((stableSortBy_perm _ _).map _).sum_eq
  have habs : ((acquisitionsOf l).map (fun tx => |tx.amount|)).sum =
      ((acquisitionsOf l).map (fun tx => tx.amount)).sum := by
    congr 1
    apply List.map_congr_left
    intro a ha
    exact abs_of_nonneg (hnn a ha)
  have hpos := liveLotSum_nonneg _ hwfF
  rw [habs, ← hperm, ← hlive]
  rw [hzero, zero_add] at hsumF
  linarith

/-- C10: (a) for every input batch and method, per token the total magnitude
of the disposition entries the engine emits never exceeds the token's total
acquired supply, even when the requested disposal amounts exceed it — the
input is assumed well-formed in the sense of the data model (acquisition-typed
transactions have non-negative amounts); (b) an entry already marked
`isDisposed = true` is frozen: a later disposition never consumes or modifies
it (the lot walk only skips it). -/
theorem c10_no_overconsumption (txs : List Transaction) (opts : CalculationOptions)
    (hnn : ∀ tx ∈ txs, isAcquisitionType tx.type = true → 0 ≤ tx.amount) :
    (∀ r ∈ calculateCostBasis txs opts, dispEntrySum r.entries ≤ r.totalAcquired) ∧
    (∀ (disp : Transaction) (o : CalculationOptions) (entries : List CostBasisEntry)
        (i : ℕ) (rem : ℚ) (j : ℕ) (e : CostBasisEntry),
        entries[j]? = some e → e.isDisposed = true →
        (matchDisposition disp o entries i rem).1[j]? = some e) := by
  constructor
  · intro r hr
    obtain ⟨sym, hsym, rfl⟩ := List.mem_map.1 hr
    apply ctcb_supply_bound
    intro tx htx
    have h1 := List.mem_filter.1 htx
    have h2 := List.mem_filter.1 h1.1
    exact hnn tx h2.1 h1.2
  · intro disp o entries i rem j e hj he
    exact matchDisposition_disposed_frozen disp o entries i rem j e hj he

/-- Witness for C10 on the concrete C1 batch. -/
theorem c10_no_overconsumption_witness :
    (∀ tx ∈ [c1Acq, c1Disp], isAcquisitionType tx.type = true → 0 ≤ tx.amount) ∧
    ((∀ r ∈ calculateCostBasis [c1Acq, c1Disp] c1Opts,
        dispEntrySum r.entries ≤ r.totalAcquired) ∧
     (∀ (disp : Transaction) (o : CalculationOptions) (entries : List CostBasisEntry)
        (i : ℕ) (rem : ℚ) (j : ℕ) (e : CostBasisEntry),
        entries[j]? = some e → e.isDisposed = true →
        (matchDisposition disp o entries i rem).1[j]? = some e)) := by
  have hnn : ∀ tx ∈ [c1Acq, c1Disp], isAcquisitionType tx.type = true → 0 ≤ tx.amount := by
    intro tx htx
    rcases List.mem_cons.1 htx with rfl | htx2
    · intro _
      norm_num [c1Acq]
    · rcases List.mem_cons.1 htx2 with rfl | h3
      · intro hh
        simp [c1Disp, isAcquisitionType] at hh
      · cases h3
  exact ⟨hnn, c10_no_overconsumption [c1Acq, c1Disp] c1Opts hnn⟩


/-- C6 counterexample: the round-trip fails on the signed base-unit string
"-15" with 1 decimal — `fromWei` renders the truncated `BigInt`
division/remainder as "-1.-5", on which `toWei` throws (slicing the padded
fractional part yields the invalid `BigInt` literal "-"). -/
theorem c6_roundtrip_counterexample :
    ¬ ((fromWei "-15" 1).bind (fun s => toWei s 1) = some "-15") := by decide

/-- Helper: digit value of a digit character round-trips. -/
theorem charDigit_digitChar (d : ℕ) (h : d < 10) : charDigit (digitChar d) = d := by
  interval_cases d <;> decide

/-- Helper: `digitChar` produces digit characters. -/
theorem digitChar_isDigit (d : ℕ) (h : d < 10) : (digitChar d).isDigit = true := by
  interval_cases d <;> decide

/-- Helper: a digit character is not a minus sign. -/
theorem isDigit_ne_dash (c : Char) (h : c.isDigit = true) : c ≠ '-' := by
  rintro rfl
  exact absurd h (by decide)

/-- Helper: a digit character is not a plus sign. -/
theorem isDigit_ne_plus (c : Char) (h : c.isDigit = true) : c ≠ '+' := by
  rintro rfl
  exact absurd h (by decide)

/-- Helper: a digit character is not a dot. -/
theorem isDigit_ne_dot (c : Char) (h : c.isDigit = true) : c ≠ '.' := by
  rintro rfl
  exact absurd h (by decide)

/-- Helper: the fuelled digit rendering agrees with `Nat.digits` whenever the
fuel bounds the number. -/
theorem natDigitsAux_eq (fuel : ℕ) : ∀ n, n ≤ fuel →
    natDigitsAux fuel n = (Nat.digits 10 n).reverse.map digitChar := by
  induction fuel with
  | zero =>
    intro n hn
    interval_cases n
    simp [natDigitsAux]
  | succ f ih =>
    intro n hn
    by_cases h0 : n = 0
    · subst h0
      simp [natDigitsAux]
    · have hpos : 0 < n := Nat.pos_of_ne_zero h0
      have hdivle : n / 10 ≤ f := by
        have := Nat.div_lt_self hpos (by norm_num : (1:ℕ) < 10)
        omega
      rw [show natDigitsAux (f + 1) n =
          (if n = 0 then [] else natDigitsAux f (n / 10) ++ [digitChar (n % 10)]) from rfl,
        if_neg h0, ih (n / 10) hdivle,
        Nat.digits_def' (by norm_num : (1:ℕ) < 10) hpos]
      simp

/-- Helper: `natDigits` is the big-endian digit-character list of
`Nat.digits`. -/
theorem natDigits_eq (n : ℕ) : natDigits n = (Nat.digits 10 n).reverse.map digitChar :=
  natDigitsAux_eq n n le_rfl

/-- Helper: value of digits with one more appended. -/
theorem digitsToNat_append (cs : List Char) (c : Char) :
    digitsToNat (cs ++ [c]) = 10 * digitsToNat cs + charDigit c := by
  simp [digitsToNat, List.foldl_append]

/-- Helper: parse inverts rendering on digit lists. -/
theorem digitsToNat_natDigits : ∀ n : ℕ, digitsToNat (natDigits n) = n := by
  intro n
  induction n using Nat.strong_induction_on with
  | _ n ih =>
    rcases Nat.eq_zero_or_pos n with rfl | hpos
    · decide
    · rw [natDigits_eq, Nat.digits_def' (by norm_num : (1:ℕ) < 10) hpos]
      simp only [List.reverse_cons, List.map_append, List.map_cons, List.map_nil]
      rw [digitsToNat_append, ← natDigits_eq,
        ih (n / 10) (Nat.div_lt_self hpos (by norm_num)),
        charDigit_digitChar (n % 10) (Nat.mod_lt n (by norm_num))]
      omega

/-- Helper: rendered digits are digit characters. -/
theorem natDigits_all_isDigit (n : ℕ) : (natDigits n).all Char.isDigit = true := by
  rw [natDigits_eq, List.all_eq_true]
  intro c hc
  rw [List.mem_map] at hc
  obtain ⟨d, hd, rfl⟩ := hc
  rw [List.mem_reverse] at hd
  exact digitChar_isDigit d (Nat.digits_lt_base (by norm_num) hd)

/-- Helper: the JavaScript rendering of a natural number is all digits. -/
theorem natToStrChars_all_isDigit (n : ℕ) : (natToStrChars n).all Char.isDigit = true := by
  rw [natToStrChars]
  split
  · decide
  · exact natDigits_all_isDigit n

/-- Helper: the JavaScript rendering of a natural number is nonempty. -/
theorem natToStrChars_ne_nil (n : ℕ) : natToStrChars n ≠ [] := by
  rw [natToStrChars]
  split
  · simp
  · rw [natDigits_eq]
    simp only [ne_eq, List.map_eq_nil_iff, List.reverse_eq_nil_iff]
    exact Nat.digits_ne_nil_iff_ne_zero.mpr (by assumption)

/-- Helper: value of the rendering. -/
theorem digitsToNat_natToStrChars (n : ℕ) : digitsToNat (natToStrChars n) = n := by
  rw [natToStrChars]
  split
  · subst ‹n = 0›
    decide
  · exact digitsToNat_natDigits n

/-- Helper: leading zero characters do not change the parsed value. -/
theorem digitsToNat_replicate_append (k : ℕ) (cs : List Char) :
    digitsToNat (List.replicate k '0' ++ cs) = digitsToNat cs := by
  induction k with
  | zero => simp
  | succ j ih =>
    rw [List.replicate_succ, List.cons_append]
    simpa [digitsToNat, charDigit] using ih

/-- Helper: `BigInt` parsing of an unsigned all-digit string. -/
theorem parseBigIntChars_of_digits (cs : List Char) (hne : cs ≠ [])
    (hall : cs.all Char.isDigit = true) :
    parseBigIntChars cs = some ((digitsToNat cs : ℤ)) := by
  cases cs with
  | nil => cases hne rfl
  | cons c rest =>
    have hc : c.isDigit = true := by
      rw [List.all_cons, Bool.and_eq_true] at hall
      exact hall.1
    rw [show parseBigIntChars (c :: rest) =
        (if c = '-' then
          if rest ≠ [] ∧ rest.all Char.isDigit then some (-(digitsToNat rest : ℤ)) else none
        else if c = '+' then
          if rest ≠ [] ∧ rest.all Char.isDigit then some ((digitsToNat rest : ℤ)) else none
        else if (c :: rest).all Char.isDigit then some ((digitsToNat (c :: rest) : ℤ))
        else none) from rfl,
      if_neg (isDigit_ne_dash c hc), if_neg (isDigit_ne_plus c hc), if_pos hall]

/-- Helper: parsing inverts the rendering of a natural number. -/
theorem parseBigInt_intToStr_ofNat (n : ℕ) : parseBigInt (intToStr n) = some ((n : ℤ)) := by
  rw [intToStr, if_neg (by exact_mod_cast Nat.not_lt_zero n : ¬((n : ℤ) < 0))]
  rw [show (n : ℤ).natAbs = n from Int.natAbs_ofNat n]
  rw [parseBigInt]
  rw [show (String.mk (natToStrChars n)).data = natToStrChars n from rfl]
  rw [parseBigIntChars_of_digits _ (natToStrChars_ne_nil n) (natToStrChars_all_isDigit n),
    digitsToNat_natToStrChars]


/-- Helper: `takeWhile` of the not-a-dot test keeps a dotless string whole. -/
theorem takeWhile_no_dot (cs : List Char) (h : ∀ c ∈ cs, c ≠ '.') :
    cs.takeWhile (fun c => !(c == '.')) = cs := by
  induction cs with
  | nil => rfl
  | cons a l ih =>
    rw [List.takeWhile_cons, if_pos (by simpa using h a (List.mem_cons_self a l)),
      ih (fun c hc => h c (List.mem_cons_of_mem a hc))]

/-- Helper: `dropWhile` of the not-a-dot test exhausts a dotless string. -/
theorem dropWhile_no_dot (cs : List Char) (h : ∀ c ∈ cs, c ≠ '.') :
    cs.dropWhile (fun c => !(c == '.')) = [] := by
  rw [List.dropWhile_eq_nil_iff]
  intro c hc
  simpa using h c hc

/-- Helper: the whole-part component of the dot split. -/
theorem jsSplitDotFst_append (ws fs : List Char) (hws : ∀ c ∈ ws, c ≠ '.') :
    jsSplitDotFst (ws ++ '.' :: fs) = ws := by
  rw [jsSplitDotFst]
  induction ws with
  | nil => simp [List.takeWhile_cons]
  | cons a l ih =>
    rw [List.cons_append, List.takeWhile_cons,
      if_pos (by simpa using hws a (List.mem_cons_self a l)),
      ih (fun c hc => hws c (List.mem_cons_of_mem a hc))]

/-- Helper: the fractional component of the dot split. -/
theorem jsSplitDotSnd_append (ws fs : List Char) (hws : ∀ c ∈ ws, c ≠ '.')
    (hfs : ∀ c ∈ fs, c ≠ '.') :
    jsSplitDotSnd (ws ++ '.' :: fs) = fs := by
  rw [jsSplitDotSnd]
  have hdrop : (ws ++ '.' :: fs).dropWhile (fun c => !(c == '.')) = '.' :: fs := by
    induction ws with
    | nil => simp [List.dropWhile_cons]
    | cons a l ih =>
      rw [List.cons_append, List.dropWhile_cons,
        if_pos (by simpa using hws a (List.mem_cons_self a l))]
      exact ih (fun c hc => hws c (List.mem_cons_of_mem a hc))
  rw [hdrop]
  exact takeWhile_no_dot fs hfs

/-- Helper: the whole-part component of the dot split of a dotless string. -/
theorem jsSplitDotFst_no_dot (cs : List Char) (h : ∀ c ∈ cs, c ≠ '.') :
    jsSplitDotFst cs = cs :=
  takeWhile_no_dot cs h

/-- Helper: the fractional component of the dot split of a dotless string is
empty. -/
theorem jsSplitDotSnd_no_dot (cs : List Char) (h : ∀ c ∈ cs, c ≠ '.') :
    jsSplitDotSnd cs = [] := by
  rw [jsSplitDotSnd, dropWhile_no_dot cs h]

/-- Helper: stripping the trailing zeros of the fractional part, behind a
whole part and a dot; requires the fractional part to contain a nonzero digit
(so the dot survives) and no dot. -/
theorem stripTrailingZerosDot_append (ws padded : List Char)
    (hnz : ¬ ∀ c ∈ padded, c = '0') (hdot : ∀ c ∈ padded, c ≠ '.') :
    stripTrailingZerosDot (ws ++ '.' :: padded) =
      ws ++ '.' :: (padded.reverse.dropWhile (fun c => c == '0')).reverse := by
  have hDne : padded.reverse.dropWhile (fun c => c == '0') ≠ [] := by
    intro hnil
    rw [List.dropWhile_eq_nil_iff] at hnil
    apply hnz
    intro c hc
    simpa using hnil c (List.mem_reverse.mpr hc)
  have hrev : (ws ++ '.' :: padded).reverse = padded.reverse ++ '.' :: ws.reverse := by
    simp
  have hdw : (padded.reverse ++ '.' :: ws.reverse).dropWhile (fun c => c == '0') =
      padded.reverse.dropWhile (fun c => c == '0') ++ '.' :: ws.reverse := by
    rw [List.dropWhile_append]
    rw [if_neg (by simpa [List.isEmpty_iff] using hDne)]
  rw [stripTrailingZerosDot]
  simp only [hrev, hdw]
  by_cases hfull : (padded.reverse.dropWhile (fun c => c == '0')).length = padded.length
  · have htake : padded.reverse.takeWhile (fun c => c == '0') = [] := by
      have h1 := List.takeWhile_append_dropWhile (fun c => c == '0') padded.reverse
      have h2 := congrArg List.length h1
      rw [List.length_append, List.length_reverse] at h2
      apply List.eq_nil_of_length_eq_zero
      omega
    have hD : padded.reverse.dropWhile (fun c => c == '0') = padded.reverse := by
      conv_rhs => rw [← List.takeWhile_append_dropWhile (fun c => c == '0') padded.reverse]
      rw [htake, List.nil_append]
    rw [if_pos (by simp [hD]; omega)]
    rw [hD]
    simp
  · rw [if_neg (by simp; omega)]
    rcases hDcons : padded.reverse.dropWhile (fun c => c == '0') with _ | ⟨d0, Dtl⟩
    · exact absurd hDcons hDne
    · have hd0 : d0 ≠ '.' := by
        apply hdot
        rw [← List.mem_reverse]
        exact (List.dropWhile_suffix (fun c => c == '0')).subset (by rw [hDcons]; simp)
      rw [List.cons_append]
      split
      · rename_i heq
        rw [List.cons_eq_cons] at heq
        exact absurd heq.1 hd0
      · simp


/-- Helper: rendering a natural number never contains a minus sign. -/
theorem intToStr_ofNat (n : ℕ) : intToStr (n : ℤ) = ⟨natToStrChars n⟩ := by
  rw [intToStr, if_neg (by exact_mod_cast Nat.not_lt_zero n : ¬((n : ℤ) < 0)),
    Int.natAbs_ofNat]

/-- Helper: rendered naturals contain no dot. -/
theorem natToStrChars_no_dot (n : ℕ) : ∀ c ∈ natToStrChars n, c ≠ '.' := by
  intro c hc
  have := (List.all_eq_true.mp (natToStrChars_all_isDigit n)) c hc
  exact isDigit_ne_dot c this

/-- Helper: an all-zero digit string has value zero. -/
theorem digitsToNat_all_zero (cs : List Char) (h : ∀ c ∈ cs, c = '0') :
    digitsToNat cs = 0 := by
  induction cs with
  | nil => rfl
  | cons a l ih =>
    have ha := h a (List.mem_cons_self a l)
    subst ha
    simpa [digitsToNat, charDigit] using ih (fun c hc => h c (List.mem_cons_of_mem _ hc))

/-- Helper: `BigInt` parsing of a run of zero characters. -/
theorem parseBigIntChars_replicate_zero (d : ℕ) :
    parseBigIntChars (List.replicate d '0') = some 0 := by
  cases d with
  | zero => rfl
  | succ k =>
    rw [parseBigIntChars_of_digits _ (by simp) (by
      rw [List.all_eq_true]
      intro c hc
      rw [List.eq_of_mem_replicate hc]
      decide)]
    rw [digitsToNat_all_zero _ (fun c hc => List.eq_of_mem_replicate hc)]
    rfl

/-- Helper: a natural below `10 ^ d` renders in at most `d` digit characters. -/
theorem natToStrChars_length_le (f d : ℕ) (hd : 0 < d) (hf : f < 10 ^ d) :
    (natToStrChars f).length ≤ d := by
  rw [natToStrChars]
  split
  · simpa using hd
  · rw [natDigits_eq]
    rw [List.length_map, List.length_reverse]
    rw [Nat.digits_len 10 f (by norm_num) (by assumption)]
    have := (Nat.lt_pow_iff_log_lt (by norm_num) (by assumption)).mp hf
    omega

/-- Helper: `fromWei` on the rendering of a natural number. -/
theorem fromWei_ofNat (n d : ℕ) :
    fromWei (intToStr (n : ℤ)) d =
      (if (n % 10 ^ d : ℕ) = 0 then some (intToStr ((n / 10 ^ d : ℕ) : ℤ))
       else some ⟨stripTrailingZerosDot ((intToStr ((n / 10 ^ d : ℕ) : ℤ)).data ++ '.' ::
         jsPadStart (intToStr ((n % 10 ^ d : ℕ) : ℤ)).data d '0')⟩) := by
  rw [fromWei, parseBigInt_intToStr_ofNat n]
  have htdiv : (n : ℤ).tdiv ((10 : ℤ) ^ d) = ((n / 10 ^ d : ℕ) : ℤ) := by
    rw [show ((10 : ℤ) ^ d) = ((10 ^ d : ℕ) : ℤ) by push_cast; ring]
    rfl
  have htmod : (n : ℤ).tmod ((10 : ℤ) ^ d) = ((n % 10 ^ d : ℕ) : ℤ) := by
    rw [show ((10 : ℤ) ^ d) = ((10 ^ d : ℕ) : ℤ) by push_cast; ring]
    rfl
  simp only [htdiv, htmod, Nat.cast_eq_zero]


/-- Helper: parsing the rendering of a natural number (character level). -/
theorem parse_natToStrChars (n : ℕ) : parseBigIntChars (natToStrChars n) = some ((n : ℤ)) := by
  rw [parseBigIntChars_of_digits _ (natToStrChars_ne_nil n) (natToStrChars_all_isDigit n),
    digitsToNat_natToStrChars]

/-- Helper: `toWei` on a dotless rendered natural. -/
theorem toWei_digits_only (w d : ℕ) :
    toWei ⟨natToStrChars w⟩ d = some (intToStr ((w : ℤ) * 10 ^ d)) := by
  rw [toWei]
  rw [show (String.mk (natToStrChars w)).data = natToStrChars w from rfl]
  rw [jsSplitDotFst_no_dot _ (natToStrChars_no_dot w),
    jsSplitDotSnd_no_dot _ (natToStrChars_no_dot w)]
  rw [if_neg (natToStrChars_ne_nil w)]
  rw [parse_natToStrChars w]
  rw [show jsPadEnd [] d '0' = List.replicate d '0' by simp [jsPadEnd]]
  rw [show (List.replicate d '0').take d = List.replicate d '0' from
    List.take_of_length_le (by simp)]
  rw [parseBigIntChars_replicate_zero d]
  simp

/-- Helper: `toWei` on a rendered whole part, a dot, and a fractional string
whose padding parses to `f`. -/
theorem toWei_split (w f d : ℕ) (frac : List Char)
    (hfr : ∀ c ∈ frac, c ≠ '.')
    (hparse : parseBigIntChars ((jsPadEnd frac d '0').take d) = some ((f : ℤ))) :
    toWei ⟨natToStrChars w ++ '.' :: frac⟩ d =
      some (intToStr ((w : ℤ) * 10 ^ d + (f : ℤ))) := by
  rw [toWei]
  rw [show (String.mk (natToStrChars w ++ '.' :: frac)).data =
    natToStrChars w ++ '.' :: frac from rfl]
  rw [jsSplitDotFst_append _ _ (natToStrChars_no_dot w),
    jsSplitDotSnd_append _ _ (natToStrChars_no_dot w) hfr]
  rw [if_neg (natToStrChars_ne_nil w)]
  rw [parse_natToStrChars w, hparse]


/-- Helper: the padded fractional block is all digit characters. -/
theorem padStart_all_isDigit (f d : ℕ) :
    (jsPadStart (natToStrChars f) d '0').all Char.isDigit = true := by
  rw [jsPadStart, List.all_append, Bool.and_eq_true]
  constructor
  · rw [List.all_eq_true]
    intro c hc
    rw [List.eq_of_mem_replicate hc]
    decide
  · exact natToStrChars_all_isDigit f

/-- Helper: the padded fractional block has no dot. -/
theorem padStart_no_dot (f d : ℕ) :
    ∀ c ∈ jsPadStart (natToStrChars f) d '0', c ≠ '.' := by
  intro c hc
  exact isDigit_ne_dot c ((List.all_eq_true.mp (padStart_all_isDigit f d)) c hc)

/-- Helper: value of the padded fractional block. -/
theorem digitsToNat_padStart (f d : ℕ) :
    digitsToNat (jsPadStart (natToStrChars f) d '0') = f := by
  rw [jsPadStart, digitsToNat_replicate_append, digitsToNat_natToStrChars]

/-- Helper: parsing the padded fractional block. -/
theorem parse_padStart (f d : ℕ) :
    parseBigIntChars (jsPadStart (natToStrChars f) d '0') = some ((f : ℤ)) := by
  rw [parseBigIntChars_of_digits _ ?_ (padStart_all_isDigit f d), digitsToNat_padStart]
  rw [jsPadStart]
  simp [natToStrChars_ne_nil f]

/-- Helper: the padded fractional block is nonzero somewhere when `f ≠ 0`. -/
theorem padStart_not_all_zero (f d : ℕ) (hf0 : f ≠ 0) :
    ¬ ∀ c ∈ jsPadStart (natToStrChars f) d '0', c = '0' := by
  intro hall
  exact hf0 (by rw [← digitsToNat_padStart f d, digitsToNat_all_zero _ hall])

/-- Helper: length of the padded fractional block. -/
theorem padStart_length (f d : ℕ) (hd : 0 < d) (hf : f < 10 ^ d) :
    (jsPadStart (natToStrChars f) d '0').length = d := by
  rw [jsPadStart, List.length_append, List.length_replicate]
  have := natToStrChars_length_le f d hd hf
  omega

/-- Helper: re-padding the stripped fractional block restores it exactly. -/
theorem padEnd_take_stripped (f d : ℕ) (hd : 0 < d) (hf : f < 10 ^ d) :
    (jsPadEnd (((jsPadStart (natToStrChars f) d '0').reverse.dropWhile
        (fun c => c == '0')).reverse) d '0').take d =
      jsPadStart (natToStrChars f) d '0' := by
  set padded := jsPadStart (natToStrChars f) d '0' with hpadded
  have hsplit := List.takeWhile_append_dropWhile (fun c => c == '0') padded.reverse
  have htake_all : padded.reverse.takeWhile (fun c => c == '0') =
      List.replicate (padded.reverse.takeWhile (fun c => c == '0')).length '0' := by
    apply List.eq_replicate_of_mem
    intro c hc
    simpa using List.mem_takeWhile_imp hc
  have hlen : padded.length = d := padStart_length f d hd hf
  have hback : padded =
      ((padded.reverse.dropWhile (fun c => c == '0')).reverse) ++
        List.replicate (padded.reverse.takeWhile (fun c => c == '0')).length '0' := by
    conv_lhs => rw [← List.reverse_reverse padded, ← hsplit]
    rw [List.reverse_append]
    congr 1
    rw [← List.reverse_replicate]
    congr 1
  have hlensum : ((padded.reverse.dropWhile (fun c => c == '0')).reverse).length +
      (padded.reverse.takeWhile (fun c => c == '0')).length = d := by
    have := congrArg List.length hsplit
    rw [List.length_append, List.length_reverse] at this
    rw [List.length_reverse]
    omega
  rw [jsPadEnd]
  rw [show d - ((padded.reverse.dropWhile (fun c => c == '0')).reverse).length =
      (padded.reverse.takeWhile (fun c => c == '0')).length by omega]
  rw [← hback]
  exact List.take_of_length_le (le_of_eq hlen)

/-- C6 (amended): for every canonical non-negative base-unit integer string —
the decimal rendering of a natural number — and every `decimals ≤ 22` (the
range where `Math.pow(10, decimals)` is an exact power of ten),
`toWei (fromWei a d) d` returns the original string.  The original claim is
false for signed strings (see the counterexample) and, through
floating-point `Math.pow`, for `decimals ≥ 23`. -/
theorem c6_roundtrip_amended (n d : ℕ) (h22 : d ≤ 22) :
    (fromWei (intToStr (n : ℤ)) d).bind (fun s => toWei s d) = some (intToStr (n : ℤ)) := by
  rw [fromWei_ofNat]
  by_cases hf : n % 10 ^ d = 0
  · rw [if_pos hf]
    rw [show (some (intToStr ((n / 10 ^ d : ℕ) : ℤ))).bind (fun s => toWei s d) =
      toWei (intToStr ((n / 10 ^ d : ℕ) : ℤ)) d from rfl]
    rw [intToStr_ofNat (n / 10 ^ d), toWei_digits_only]
    have hdm := Nat.div_add_mod n (10 ^ d)
    rw [hf, Nat.add_zero] at hdm
    congr 1
    rw [show ((n : ℤ)) = (((10 ^ d * (n / 10 ^ d) : ℕ)) : ℤ) by rw [hdm]]
    push_cast
    ring
  · rw [if_neg hf]
    have hd : 0 < d := by
      rcases Nat.eq_zero_or_pos d with rfl | hd
      · exact absurd (Nat.mod_one n) hf
      · exact hd
    have hflt : n % 10 ^ d < 10 ^ d := Nat.mod_lt n (Nat.pos_pow_of_pos d (by norm_num))
    rw [intToStr_ofNat (n / 10 ^ d), intToStr_ofNat (n % 10 ^ d)]
    rw [show (String.mk (natToStrChars (n / 10 ^ d))).data =
      natToStrChars (n / 10 ^ d) from rfl,
      show (String.mk (natToStrChars (n % 10 ^ d))).data =
      natToStrChars (n % 10 ^ d) from rfl]
    rw [stripTrailingZerosDot_append _ _ (padStart_not_all_zero _ d hf)
      (padStart_no_dot _ d)]
    rw [show (some (String.mk (natToStrChars (n / 10 ^ d) ++ '.' ::
        ((jsPadStart (natToStrChars (n % 10 ^ d)) d '0').reverse.dropWhile
          (fun c => c == '0')).reverse))).bind (fun s => toWei s d) =
      toWei ⟨natToStrChars (n / 10 ^ d) ++ '.' ::
        ((jsPadStart (natToStrChars (n % 10 ^ d)) d '0').reverse.dropWhile
          (fun c => c == '0')).reverse⟩ d from rfl]
    rw [toWei_split (n / 10 ^ d) (n % 10 ^ d) d _
      (fun c hc => padStart_no_dot _ d c (by
        rw [List.mem_reverse] at hc
        have h2 := (List.dropWhile_suffix (fun x => x == '0')).subset hc
        rw [List.mem_reverse] at h2
        exact h2))
      (by rw [padEnd_take_stripped _ d hd hflt, parse_padStart])]
    have hdm := Nat.div_add_mod n (10 ^ d)
    congr 1
    rw [show ((n : ℤ)) = (((10 ^ d * (n / 10 ^ d) + n % 10 ^ d : ℕ)) : ℤ) by rw [hdm]]
    push_cast
    ring

/-- Witness for C6 at `n = 15`, `d = 1` (the string "15", rendered "1.5" and
parsed back to "15"). -/
theorem c6_roundtrip_amended_witness :
    (1 : ℕ) ≤ 22 ∧
    (fromWei (intToStr ((15 : ℕ) : ℤ)) 1).bind (fun s => toWei s 1) =
      some (intToStr ((15 : ℕ) : ℤ)) :=
  ⟨by norm_num, c6_roundtrip_amended 15 1 (by norm_num)⟩


/-- C5 (failing input of the repository's own Solana adapter test): on the
raw transaction with lamport value "5000", `parseTransaction` emits the
native transfer with `tokenSymbol` "SOL" and type transfer, but its amount
is `5000 / 10^9` — the floating-point SOL conversion
(`Number(lamports) / 1e9`, rendered "0.000005") — and not the base-unit
lamport integer 5000 that the invariant (and the test at
solana.adapter.test.ts, `amount: '5000'`) requires. -/
theorem c5_solana_amount_not_base_unit :
    (solanaParseTransaction (fun _ _ => none) c5TestRawTx).tokenSymbol = "SOL" ∧
    (solanaParseTransaction (fun _ _ => none) c5TestRawTx).type = .transfer ∧
    (solanaParseTransaction (fun _ _ => none) c5TestRawTx).amount = 5000 / 1000000000 ∧
    (solanaParseTransaction (fun _ _ => none) c5TestRawTx).amount ≠ 5000 := by
  have h : (solanaParseTransaction (fun _ _ => none) c5TestRawTx).amount =
      (((parseBigInt "5000").getD 0 : ℤ) : ℚ) / 1000000000 := rfl
  have h2 : (parseBigInt "5000").getD 0 = (5000 : ℤ) := by decide
  refine ⟨rfl, rfl, ?_, ?_⟩
  · rw [h, h2]; norm_num
  · rw [h, h2]; norm_num

/-- C8: for each adapter, a syntactically invalid address makes
`getTransactions` reject with `InvalidAddressError` without issuing a single
network request, whatever the fetch body would do; for Bitcoin the claim
holds on initialized instances (the source checks `this.apiClient` first). -/
theorem c8_invalid_address_no_network :
    (∀ (st : EthereumAdapterState) (address : String)
        (body : EthereumAdapterState → String → Except JsError (List RawTransactionStub) × ℕ),
        ethereumIsValidAddress address = false →
        ethereumGetTransactions st address body =
          (.error (invalidAddressError "ethereum" address), 0)) ∧
    (∀ (isOnCurve : String → Bool) (st : SolanaAdapterState) (address : String)
        (body : SolanaAdapterState → String → Except JsError (List RawTransactionStub) × ℕ),
        solanaIsValidAddress isOnCurve address = false →
        solanaGetTransactions isOnCurve st address body =
          (.error (invalidAddressError "solana" address), 0)) ∧
    (∀ (toOutputScriptOk : String → Bool) (st : BitcoinAdapterState)
        (cfg : BlockchainConfig) (address : String)
        (body : BitcoinAdapterState → String → Except JsError (List RawTransactionStub) × ℕ),
        st.apiClient = some cfg →
        bitcoinIsValidAddress toOutputScriptOk address = false →
        bitcoinGetTransactions toOutputScriptOk st address body =
          (.error (invalidAddressError "bitcoin" address), 0)) := by
  refine ⟨?_, ?_, ?_⟩
  · intro st address body h
    rw [ethereumGetTransactions, if_pos (by rw [h]; rfl)]
  · intro isOnCurve st address body h
    rw [solanaGetTransactions, if_pos (by rw [h]; rfl)]
  · intro toOutputScriptOk st cfg address body hcfg h
    rw [bitcoinGetTransactions, if_neg (by rw [hcfg]; simp), if_pos (by rw [h]; rfl)]

/-- Witness for C8: "abc" is invalid on Ethereum and Solana, "" on Bitcoin;
the fetch body that would claim 7 network calls is never run. -/
theorem c8_invalid_address_no_network_witness :
    ethereumIsValidAddress "abc" = false ∧
    solanaIsValidAddress (fun _ => true) "abc" = false ∧
    bitcoinIsValidAddress (fun _ => true) "" = false ∧
    ethereumGetTransactions ethereumFresh "abc" (fun _ _ => (.ok [], 7)) =
      (.error (invalidAddressError "ethereum" "abc"), 0) ∧
    solanaGetTransactions (fun _ => true) solanaFresh "abc" (fun _ _ => (.ok [], 7)) =
      (.error (invalidAddressError "solana" "abc"), 0) ∧
    bitcoinGetTransactions (fun _ => true)
      { initialized := true, apiClient := some { rpcUrl := "u" } } "" (fun _ _ => (.ok [], 7)) =
      (.error (invalidAddressError "bitcoin" ""), 0) :=
  ⟨by decide, by decide, by decide,
   c8_invalid_address_no_network.1 ethereumFresh "abc" _ (by decide),
   c8_invalid_address_no_network.2.1 (fun _ => true) solanaFresh "abc" _ (by decide),
   c8_invalid_address_no_network.2.2 (fun _ => true)
     { initialized := true, apiClient := some { rpcUrl := "u" } } { rpcUrl := "u" } "" _
     rfl (by decide)⟩

/-- C9 counterexample: on each adapter the second `initialize` rejects with a
plain `Error` (name "Error", message 'Adapter already initialized') — there
is no `AlreadyInitializedError` class anywhere in the codebase, so the claim
that the failure is an `AlreadyInitializedError` is false. -/
theorem c9_counterexample :
    ethereumInitialize cfgA { initialized := true, provider := some cfgA } =
      .error (jsGenericError "Adapter already initialized") ∧
    solanaInitialize cfgA { initialized := true, connection := some cfgA, config := some cfgA } =
      .error (jsGenericError "Adapter already initialized") ∧
    bitcoinInitialize cfgA { initialized := true, apiClient := some cfgA } =
      .error (jsGenericError "Adapter already initialized") ∧
    (jsGenericError "Adapter already initialized").name ≠ "AlreadyInitializedError" := by
  refine ⟨rfl, rfl, rfl, by decide⟩

/-- C9 (amended): `initialize` is one-shot on each adapter — the first call
on a fresh instance succeeds, and a second call fails — but the failure is a
plain `Error('Adapter already initialized')`, not an
`AlreadyInitializedError`. -/
theorem c9_initialize_one_shot (cfg cfg2 : BlockchainConfig) :
    (ethereumInitialize cfg ethereumFresh = .ok { initialized := true, provider := some cfg } ∧
     ethereumInitialize cfg2 { initialized := true, provider := some cfg } =
       .error (jsGenericError "Adapter already initialized")) ∧
    (solanaInitialize cfg solanaFresh =
       .ok { initialized := true, connection := some cfg, config := some cfg } ∧
     solanaInitialize cfg2 { initialized := true, connection := some cfg, config := some cfg } =
       .error (jsGenericError "Adapter already initialized")) ∧
    (bitcoinInitialize cfg bitcoinFresh =
       .ok { initialized := true, apiClient := some cfg,
             networkTestnet := cfg.network == some "testnet" } ∧
     bitcoinInitialize cfg2
         { initialized := true, apiClient := some cfg,
           networkTestnet := cfg.network == some "testnet" } =
       .error (jsGenericError "Adapter already initialized")) :=
  ⟨⟨rfl, rfl⟩, ⟨rfl, rfl⟩, ⟨rfl, rfl⟩⟩

end CryptoTax
